import Mathlib

/-!
Verification of the core rendering algorithm of a small Rust path tracer
(ray-sphere intersection, scene traversal, recursive radiance estimation,
tonemapping, orthonormal-basis construction).

The `f32` arithmetic of the source is modelled over the rationals (`ℚ`);
`f32::sqrt` is modelled by `Rat.sqrt`, which agrees with the real square root
on every perfect square (all concrete inputs used below are engineered so
that every square root taken is exact).  `tonemap`, which uses the
transcendental `powf`, is modelled separately over the reals.

The thread-local random generator is modelled by an explicit stream of
pregenerated rational samples (`List ℚ`); running out of stream is reported
as `RtErr.randOut` (a modelling artifact: the Rust code draws as many samples
as it needs).  The single genuine failure mode of the source, the panicking
index `scene.lights[0]` on an empty light list, is modelled as
`RtErr.indexOut`.

The mutual recursion of `radiance` and `compute_indirect_lighting` is
translated with an explicit fuel parameter (`radianceF`,
`compute_indirect_lightingF`), decremented at every recursive call; the
fuel-free functions `radiance` and `compute_indirect_lighting`, which all
theorems are about, instantiate the fuel with a sufficient bound.  The lemma
`radianceF_canon` shows that any fuel at least as large as that bound
computes the same value, which recovers the recursion equations of the Rust
source as unfolding lemmas below.
-/

namespace RustRt

/-- The square-root model of `f32::sqrt`: `Rat.sqrt`, behind an irreducible
wrapper so that symbolic occurrences are never unfolded into its recursive
implementation; it is exact on every perfect rational square
(see `ratSqrt_eval`). -/
@[irreducible] def ratSqrt (q : ℚ) : ℚ := Rat.sqrt q

/-- The wrapper computes `Rat.sqrt`. -/
theorem ratSqrt_eq_sqrt (q : ℚ) : ratSqrt q = Rat.sqrt q := by
  with_unfolding_all rfl

/-- Exactness of the square-root model on perfect squares. -/
theorem ratSqrt_eval (q r : ℚ) (h : 0 ≤ r) (he : r * r = q) : ratSqrt q = r := by
  rw [ratSqrt_eq_sqrt, ← he, Rat.sqrt_eq, abs_of_nonneg h]

/-- 3-component vector of `f32`, modelled over `ℚ` (struct `Vec3` in the source). -/
structure Vec3 where
  x : ℚ
  y : ℚ
  z : ℚ
  deriving DecidableEq, Repr

/-- Constructor `Vec3::new`. -/
def Vec3.new (x y z : ℚ) : Vec3 := ⟨x, y, z⟩

/-- Componentwise addition (`Vec3::add`). -/
def Vec3.add (a b : Vec3) : Vec3 := Vec3.new (a.x + b.x) (a.y + b.y) (a.z + b.z)

/-- Componentwise subtraction (`Vec3::sub`). -/
def Vec3.sub (a b : Vec3) : Vec3 := Vec3.new (a.x - b.x) (a.y - b.y) (a.z - b.z)

/-- Componentwise product (`Vec3::mul`). -/
def Vec3.mul (a b : Vec3) : Vec3 := Vec3.new (a.x * b.x) (a.y * b.y) (a.z * b.z)

/-- Scalar product (`Vec3::mulf`). -/
def Vec3.mulf (a : Vec3) (f : ℚ) : Vec3 := Vec3.new (a.x * f) (a.y * f) (a.z * f)

/-- Dot product (`Vec3::dot`), written exactly as in the source: the sum of
the components of the componentwise product. -/
def Vec3.dot (a b : Vec3) : ℚ :=
  let m := a.mul b
  m.x + m.y + m.z

/-- Squared length (`Vec3::length2`). -/
def Vec3.length2 (a : Vec3) : ℚ := a.x * a.x + a.y * a.y + a.z * a.z

/-- Normalization (`Vec3::normalize`): `mulf (1 / sqrt length2)`. -/
def Vec3.normalize (a : Vec3) : Vec3 := a.mulf (1 / ratSqrt a.length2)

/-- Perfect mirror reflection (`reflect` in the source):
`n * (-dot i n * 2) + i`. -/
def reflect (i n : Vec3) : Vec3 := (n.mulf (-(i.dot n) * 2)).add i

/-- Surface material (enum `Material`). -/
inductive Material where
  | Diffuse : Material
  | Mirror : Material
  | Glass : Material
  deriving DecidableEq, Repr

/-- A ray: origin plus direction (struct `Ray`). -/
structure Ray where
  origin : Vec3
  direction : Vec3
  deriving DecidableEq, Repr

/-- `Ray::get_p`: the point at parameter `t` along the ray. -/
def Ray.get_p (r : Ray) (t : ℚ) : Vec3 := r.origin.add (r.direction.mulf t)

/-- A sphere (struct `Sphere`). -/
structure Sphere where
  radius : ℚ
  center : Vec3
  emission : Vec3
  color : Vec3
  material : Material
  deriving DecidableEq, Repr

/-- Result of a hit test (struct `Intersect`): distance parameter and the
struck sphere (a copy of the value the Rust reference points to). -/
structure Intersect where
  t : ℚ
  sphere : Sphere
  deriving DecidableEq, Repr

/-- Ray-sphere intersection (`intersect` in the source).  Solves
`a t^2 + b t + c = 0` with `a = |d|^2`, `b = -2 d . (C - O)`,
`c = |C - O|^2 - r^2`; returns the smaller non-negative root if any. -/
def intersect (sphere : Sphere) (ray : Ray) : Option Intersect :=
  let a := ray.direction.length2
  let b := -2 * ray.direction.dot (sphere.center.sub ray.origin)
  let c := (sphere.center.sub ray.origin).length2 - sphere.radius * sphere.radius
  let det := b * b - 4 * a * c
  if det < 0 then
    none
  else
    let det_sqrt := ratSqrt det
    let t := (-b - det_sqrt) / (2 * a)
    if t ≥ 0 then
      some ⟨t, sphere⟩
    else
      let t2 := (-b + det_sqrt) / (2 * a)
      if t2 ≥ 0 then
        some ⟨t2, sphere⟩
      else
        none

/-- A point light (struct `Light`). -/
structure Light where
  position : Vec3
  emission : Vec3
  deriving DecidableEq, Repr

/-- The scene: spheres plus lights (struct `Scene`). -/
structure Scene where
  spheres : List Sphere
  lights : List Light
  deriving DecidableEq, Repr

/-- One step of the nearest-hit loop of `intersect_scene`: the body of the
`for` loop, updating the current best intersection `res` with sphere
`sphere`. -/
def stepIntersect (ray : Ray) (res : Option Intersect) (sphere : Sphere) :
    Option Intersect :=
  match intersect sphere ray with
  | none => res
  | some newIt =>
    match res with
    | none => some newIt
    | some old => if newIt.t < old.t then some newIt else res

/-- Nearest-hit search over all spheres of the scene (`intersect_scene`):
a linear scan keeping the smallest `t`, ties won by the earlier sphere. -/
def intersect_scene (scene : Scene) (ray : Ray) : Option Intersect :=
  scene.spheres.foldl (stepIntersect ray) none

/-- Failure modes of the model of `radiance`:
`indexOut` models the Rust panic on `scene.lights[0]` when the light list is
empty; `randOut` is a modelling artifact marking exhaustion of the explicit
random stream (the Rust generator is inexhaustible); `fuelOut` is the bottom
of the fuel-indexed approximations `radianceF` and
`compute_indirect_lightingF` and is never reached from the fuel-free
entry points. -/
inductive RtErr where
  | indexOut : RtErr
  | randOut : RtErr
  | fuelOut : RtErr
  deriving DecidableEq, Repr

/-- Direct lighting at point `p` of `sphere` from `light`
(`compute_direct_lighting` in the source): a shadow ray offset by `0.01`
toward the light decides occlusion; otherwise the contribution is
`color * (|n . l| / (3.14159 * d^2)) * emission`. -/
def compute_direct_lighting (scene : Scene) (sphere : Sphere) (light : Light)
    (p : Vec3) : Vec3 :=
  let sphere_to_light := light.position.sub p
  let d2 := sphere_to_light.length2
  let d := ratSqrt d2
  let sphere_to_light_norm := sphere_to_light.mulf (1 / d)
  let normal_surface_norm := (p.sub sphere.center).normalize
  let abs_dot := abs (normal_surface_norm.dot sphere_to_light_norm)
  let r : Ray := ⟨p.add (sphere_to_light_norm.mulf (1 / 100)), sphere_to_light_norm⟩
  let occluded :=
    match intersect_scene scene r with
    | none => false
    | some it => decide (it.t < d)
  if occluded then
    Vec3.new 0 0 0
  else
    (sphere.color.mulf (abs_dot / (314159 / 100000 * d2))).mul light.emission

mutual

/-- Fuel-indexed translation of `compute_indirect_lighting` of the source:
draws a direction uniformly from the cube `[-1,1]^3` (three stream samples),
normalizes it, rejects it (retrying with the rest of the stream, at the same
depth) while its dot product with the outward surface normal is positive, and
otherwise recurses into `radiance` at `depth + 1` along it (origin offset by
`0.01`), scaling the result by `color * (|dot| * 2)`. -/
def compute_indirect_lightingF (fuel : Nat) (scene : Scene) (sphere : Sphere)
    (p : Vec3) (depth : Nat) (rands : List ℚ) : Except RtErr Vec3 :=
  match fuel with
  | 0 => Except.error RtErr.fuelOut
  | fuel + 1 =>
    match rands with
    | [] => Except.error RtErr.randOut
    | [_] => Except.error RtErr.randOut
    | [_, _] => Except.error RtErr.randOut
    | u :: v :: w :: rest =>
      let normal_surface_norm := (p.sub sphere.center).normalize
      let new_direction := (((Vec3.new u v w).mulf 2).sub (Vec3.new 1 1 1)).normalize
      let d := normal_surface_norm.dot new_direction
      if 0 < d then
        compute_indirect_lightingF fuel scene sphere p depth rest
      else
        let r : Ray := ⟨p.add (new_direction.mulf (1 / 100)), new_direction⟩
        (radianceF fuel scene r (depth + 1) rest).map
          (fun c => (sphere.color.mulf (abs d * 2)).mul c)
termination_by structural fuel

/-- Fuel-indexed translation of `radiance` of the source.  Returns black past
depth 3 and on a miss; dispatches on the material of the nearest hit: Diffuse
sums direct lighting from `scene.lights[0]` (panicking, i.e.
`RtErr.indexOut`, when no light exists) with indirect lighting; Mirror and
Glass recurse (identically) along the reflected direction at `depth + 1`. -/
def radianceF (fuel : Nat) (scene : Scene) (ray : Ray) (depth : Nat)
    (rands : List ℚ) : Except RtErr Vec3 :=
  match fuel with
  | 0 => Except.error RtErr.fuelOut
  | fuel + 1 =>
    if _h : 3 < depth then
      Except.ok (Vec3.new 0 0 0)
    else
      match intersect_scene scene ray with
      | none => Except.ok (Vec3.new 0 0 0)
      | some it =>
        let p := ray.get_p it.t
        match it.sphere.material with
        | Material.Diffuse =>
          match scene.lights with
          | [] => Except.error RtErr.indexOut
          | l :: _ =>
            (compute_indirect_lightingF fuel scene it.sphere p depth rands).map
              (fun ind => (compute_direct_lighting scene it.sphere l p).add ind)
        | Material.Mirror =>
          let normal := (p.sub it.sphere.center).normalize
          let dir := reflect ray.direction normal
          radianceF fuel scene ⟨p.add (dir.mulf (1 / 100)), dir⟩ (depth + 1) rands
        | Material.Glass =>
          let normal := (p.sub it.sphere.center).normalize
          let dir := reflect ray.direction normal
          radianceF fuel scene ⟨p.add (dir.mulf (1 / 100)), dir⟩ (depth + 1) rands
termination_by structural fuel

end

/-- Fuel sufficient for `compute_indirect_lightingF`: every recursive call
strictly decreases the fuel while staying at least this bound for its own
arguments. -/
def indFuel (depth : Nat) (rands : List ℚ) : Nat :=
  6 * rands.length + 2 * (4 - depth) + 1

/-- Fuel sufficient for `radianceF`. -/
def radFuel (depth : Nat) (rands : List ℚ) : Nat :=
  6 * rands.length + 2 * (4 - depth) + 2

/-- The model of `compute_indirect_lighting` of the source: the fuel-indexed
translation at its sufficient fuel. -/
def compute_indirect_lighting (scene : Scene) (sphere : Sphere) (p : Vec3)
    (depth : Nat) (rands : List ℚ) : Except RtErr Vec3 :=
  compute_indirect_lightingF (indFuel depth rands) scene sphere p depth rands

/-- The model of `radiance` of the source: the fuel-indexed translation at
its sufficient fuel. -/
def radiance (scene : Scene) (ray : Ray) (depth : Nat) (rands : List ℚ) :
    Except RtErr Vec3 :=
  radianceF (radFuel depth rands) scene ray depth rands

/-- Fuel canonicalization: any fuel at least as large as the sufficient bound
computes the fuel-free value.  This is the totality argument for the
recursion of the source: the fuel bottom `RtErr.fuelOut` is unreachable from
`radiance` and `compute_indirect_lighting`. -/
theorem radianceF_canon :
    ∀ fuel : Nat,
      (∀ scene ray depth rands, radFuel depth rands ≤ fuel →
        radianceF fuel scene ray depth rands = radiance scene ray depth rands) ∧
      (∀ scene sphere p depth rands, indFuel depth rands ≤ fuel →
        compute_indirect_lightingF fuel scene sphere p depth rands =
          compute_indirect_lighting scene sphere p depth rands) := by
  intro fuel
  induction fuel using Nat.strong_induction_on with
  | _ fuel ih =>
    constructor
    · intro scene ray depth rands hle
      obtain ⟨n, hn⟩ : ∃ n, fuel = n + 1 := by
        refine ⟨fuel - 1, ?_⟩
        have := hle
        simp only [radFuel] at this
        omega
      obtain ⟨k, hk⟩ : ∃ k, radFuel depth rands = k + 1 := by
        refine ⟨radFuel depth rands - 1, ?_⟩
        simp only [radFuel]
        omega
      rw [radiance, hn, hk, radianceF, radianceF]
      by_cases hd : 3 < depth
      · simp only [dif_pos hd]
      · simp only [dif_neg hd]
        cases hi : intersect_scene scene ray with
        | none => rfl
        | some it =>
          simp only []
          cases hM : it.sphere.material with
          | Diffuse =>
            simp only []
            cases hL : scene.lights with
            | nil => rfl
            | cons l ls =>
              have hn2 : indFuel depth rands ≤ n := by
                rw [hn] at hle
                simp only [radFuel] at hle
                simp only [indFuel]
                omega
              have hk2 : indFuel depth rands ≤ k := by
                simp only [radFuel] at hk
                simp only [indFuel]
                omega
              rw [(ih n (by omega)).2 _ _ _ _ _ hn2,
                (ih k (by omega)).2 _ _ _ _ _ hk2]
          | Mirror =>
            have hn2 : radFuel (depth + 1) rands ≤ n := by
              rw [hn] at hle
              simp only [radFuel] at hle ⊢
              omega
            have hk2 : radFuel (depth + 1) rands ≤ k := by
              simp only [radFuel] at hk ⊢
              omega
            rw [(ih n (by omega)).1 _ _ _ _ hn2,
              (ih k (by omega)).1 _ _ _ _ hk2]
          | Glass =>
            have hn2 : radFuel (depth + 1) rands ≤ n := by
              rw [hn] at hle
              simp only [radFuel] at hle ⊢
              omega
            have hk2 : radFuel (depth + 1) rands ≤ k := by
              simp only [radFuel] at hk ⊢
              omega
            rw [(ih n (by omega)).1 _ _ _ _ hn2,
              (ih k (by omega)).1 _ _ _ _ hk2]
    · intro scene sphere p depth rands hle
      obtain ⟨n, hn⟩ : ∃ n, fuel = n + 1 := by
        refine ⟨fuel - 1, ?_⟩
        have := hle
        simp only [indFuel] at this
        omega
      obtain ⟨k, hk⟩ : ∃ k, indFuel depth rands = k + 1 := by
        refine ⟨indFuel depth rands - 1, ?_⟩
        simp only [indFuel]
        omega
      rcases rands with _ | ⟨u, _ | ⟨v, _ | ⟨w, rest⟩⟩⟩ <;>
        rw [compute_indirect_lighting, hn, hk, compute_indirect_lightingF,
          compute_indirect_lightingF]
      · simp only []
        by_cases hdot :
            0 < ((p.sub sphere.center).normalize).dot
              ((((Vec3.new u v w).mulf 2).sub (Vec3.new 1 1 1)).normalize)
        · simp only [if_pos hdot]
          have hn2 : indFuel depth rest ≤ n := by
            rw [hn] at hle
            simp only [indFuel, List.length_cons] at hle ⊢
            omega
          have hk2 : indFuel depth rest ≤ k := by
            simp only [indFuel, List.length_cons] at hk ⊢
            omega
          rw [(ih n (by omega)).2 _ _ _ _ _ hn2,
            (ih k (by omega)).2 _ _ _ _ _ hk2]
        · simp only [if_neg hdot]
          have hn2 : radFuel (depth + 1) rest ≤ n := by
            rw [hn] at hle
            simp only [indFuel, List.length_cons] at hle
            simp only [radFuel]
            omega
          have hk2 : radFuel (depth + 1) rest ≤ k := by
            simp only [indFuel, List.length_cons] at hk
            simp only [radFuel]
            omega
          rw [(ih n (by omega)).1 _ _ _ _ hn2,
            (ih k (by omega)).1 _ _ _ _ hk2]

/-- Canonicalization of `radianceF`, pointwise form. -/
theorem radianceF_eq_radiance (fuel : Nat) (scene : Scene) (ray : Ray)
    (depth : Nat) (rands : List ℚ) (h : radFuel depth rands ≤ fuel) :
    radianceF fuel scene ray depth rands = radiance scene ray depth rands :=
  (radianceF_canon fuel).1 scene ray depth rands h

/-- Canonicalization of `compute_indirect_lightingF`, pointwise form. -/
theorem compute_indirect_lightingF_eq (fuel : Nat) (scene : Scene)
    (sphere : Sphere) (p : Vec3) (depth : Nat) (rands : List ℚ)
    (h : indFuel depth rands ≤ fuel) :
    compute_indirect_lightingF fuel scene sphere p depth rands =
      compute_indirect_lighting scene sphere p depth rands :=
  (radianceF_canon fuel).2 scene sphere p depth rands h

/-- The direction the rejection sampler of `compute_indirect_lighting` builds
from three stream samples: the normalized image of `(u,v,w)` under the affine
map taking the unit cube onto the cube with corners `(-1,-1,-1)` and
`(1,1,1)`. -/
def cubeDir (u v w : ℚ) : Vec3 :=
  (((Vec3.new u v w).mulf 2).sub (Vec3.new 1 1 1)).normalize

/-- Unfolding lemma: past the depth cap, `radiance` is black. -/
theorem radiance_depth_exceeded (scene : Scene) (ray : Ray) (depth : Nat)
    (rands : List ℚ) (h : 3 < depth) :
    radiance scene ray depth rands = Except.ok (Vec3.new 0 0 0) := by
  obtain ⟨k, hk⟩ : ∃ k, radFuel depth rands = k + 1 :=
    ⟨radFuel depth rands - 1, by simp only [radFuel]; omega⟩
  rw [radiance, hk, radianceF, dif_pos h]

/-- Unfolding lemma: within the depth cap and with no hit, `radiance` is
black. -/
theorem radiance_miss (scene : Scene) (ray : Ray) (depth : Nat)
    (rands : List ℚ) (h : ¬ 3 < depth)
    (hm : intersect_scene scene ray = none) :
    radiance scene ray depth rands = Except.ok (Vec3.new 0 0 0) := by
  obtain ⟨k, hk⟩ : ∃ k, radFuel depth rands = k + 1 :=
    ⟨radFuel depth rands - 1, by simp only [radFuel]; omega⟩
  rw [radiance, hk, radianceF, dif_neg h, hm]

/-- Unfolding lemma: `radiance` on a Mirror hit recurses along the reflected
direction at `depth + 1` with the origin offset by `0.01`, passing the random
stream through unchanged. -/
theorem radiance_hit_mirror (scene : Scene) (ray : Ray) (depth : Nat)
    (rands : List ℚ) (it : Intersect) (h : ¬ 3 < depth)
    (hit : intersect_scene scene ray = some it)
    (hmat : it.sphere.material = Material.Mirror) :
    radiance scene ray depth rands =
      radiance scene
        ⟨(ray.get_p it.t).add
            ((reflect ray.direction
                (((ray.get_p it.t).sub it.sphere.center).normalize)).mulf (1 / 100)),
          reflect ray.direction (((ray.get_p it.t).sub it.sphere.center).normalize)⟩
        (depth + 1) rands := by
  obtain ⟨k, hk⟩ : ∃ k, radFuel depth rands = k + 1 :=
    ⟨radFuel depth rands - 1, by simp only [radFuel]; omega⟩
  rw [radiance, hk, radianceF, dif_neg h, hit]
  simp only [hmat]
  exact radianceF_eq_radiance k scene _ (depth + 1) rands
    (by simp only [radFuel] at hk ⊢; omega)

/-- Unfolding lemma: `radiance` on a Glass hit is verbatim the Mirror
behavior: it recurses along the reflected direction at `depth + 1`. -/
theorem radiance_hit_glass (scene : Scene) (ray : Ray) (depth : Nat)
    (rands : List ℚ) (it : Intersect) (h : ¬ 3 < depth)
    (hit : intersect_scene scene ray = some it)
    (hmat : it.sphere.material = Material.Glass) :
    radiance scene ray depth rands =
      radiance scene
        ⟨(ray.get_p it.t).add
            ((reflect ray.direction
                (((ray.get_p it.t).sub it.sphere.center).normalize)).mulf (1 / 100)),
          reflect ray.direction (((ray.get_p it.t).sub it.sphere.center).normalize)⟩
        (depth + 1) rands := by
  obtain ⟨k, hk⟩ : ∃ k, radFuel depth rands = k + 1 :=
    ⟨radFuel depth rands - 1, by simp only [radFuel]; omega⟩
  rw [radiance, hk, radianceF, dif_neg h, hit]
  simp only [hmat]
  exact radianceF_eq_radiance k scene _ (depth + 1) rands
    (by simp only [radFuel] at hk ⊢; omega)

/-- Unfolding lemma: `radiance` on a Diffuse hit, when at least one light
exists, adds the direct lighting from the first light to the indirect
lighting. -/
theorem radiance_hit_diffuse (scene : Scene) (ray : Ray) (depth : Nat)
    (rands : List ℚ) (it : Intersect) (l : Light) (ls : List Light)
    (h : ¬ 3 < depth) (hit : intersect_scene scene ray = some it)
    (hmat : it.sphere.material = Material.Diffuse)
    (hl : scene.lights = l :: ls) :
    radiance scene ray depth rands =
      (compute_indirect_lighting scene it.sphere (ray.get_p it.t) depth rands).map
        (fun ind =>
          (compute_direct_lighting scene it.sphere l (ray.get_p it.t)).add ind) := by
  obtain ⟨k, hk⟩ : ∃ k, radFuel depth rands = k + 1 :=
    ⟨radFuel depth rands - 1, by simp only [radFuel]; omega⟩
  rw [radiance, hk, radianceF, dif_neg h, hit]
  simp only [hmat, hl]
  rw [compute_indirect_lightingF_eq k scene it.sphere _ depth rands
    (by simp only [radFuel] at hk; simp only [indFuel]; omega)]

/-- Unfolding lemma: `radiance` on a Diffuse hit with an empty light list
reaches the panicking index `scene.lights[0]`. -/
theorem radiance_hit_diffuse_nolights (scene : Scene) (ray : Ray) (depth : Nat)
    (rands : List ℚ) (it : Intersect) (h : ¬ 3 < depth)
    (hit : intersect_scene scene ray = some it)
    (hmat : it.sphere.material = Material.Diffuse)
    (hl : scene.lights = []) :
    radiance scene ray depth rands = Except.error RtErr.indexOut := by
  obtain ⟨k, hk⟩ : ∃ k, radFuel depth rands = k + 1 :=
    ⟨radFuel depth rands - 1, by simp only [radFuel]; omega⟩
  rw [radiance, hk, radianceF, dif_neg h, hit]
  simp only [hmat, hl]

/-- Unfolding lemma: the rejection case of `compute_indirect_lighting` (the
sampled direction is on the outward-normal side of the surface) retries on
the rest of the stream, at the same depth. -/
theorem compute_indirect_reject (scene : Scene) (sphere : Sphere) (p : Vec3)
    (depth : Nat) (u v w : ℚ) (rest : List ℚ)
    (h : 0 < ((p.sub sphere.center).normalize).dot (cubeDir u v w)) :
    compute_indirect_lighting scene sphere p depth (u :: v :: w :: rest) =
      compute_indirect_lighting scene sphere p depth rest := by
  obtain ⟨k, hk⟩ : ∃ k, indFuel depth (u :: v :: w :: rest) = k + 1 :=
    ⟨indFuel depth (u :: v :: w :: rest) - 1, by simp only [indFuel]; omega⟩
  rw [compute_indirect_lighting, hk, compute_indirect_lightingF]
  simp only [cubeDir] at h
  simp only [if_pos h]
  exact compute_indirect_lightingF_eq k scene sphere p depth rest
    (by simp only [indFuel, List.length_cons] at hk ⊢; omega)

/-- Unfolding lemma: the acceptance case of `compute_indirect_lighting`
recurses into `radiance` at `depth + 1` along the sampled direction (origin
offset by `0.01`) and scales the result by `color * (|dot| * 2)`. -/
theorem compute_indirect_accept (scene : Scene) (sphere : Sphere) (p : Vec3)
    (depth : Nat) (u v w : ℚ) (rest : List ℚ)
    (h : ¬ 0 < ((p.sub sphere.center).normalize).dot (cubeDir u v w)) :
    compute_indirect_lighting scene sphere p depth (u :: v :: w :: rest) =
      (radiance scene ⟨p.add ((cubeDir u v w).mulf (1 / 100)), cubeDir u v w⟩
          (depth + 1) rest).map
        (fun c =>
          (sphere.color.mulf
              (abs (((p.sub sphere.center).normalize).dot (cubeDir u v w)) * 2)).mul
            c) := by
  obtain ⟨k, hk⟩ : ∃ k, indFuel depth (u :: v :: w :: rest) = k + 1 :=
    ⟨indFuel depth (u :: v :: w :: rest) - 1, by simp only [indFuel]; omega⟩
  rw [compute_indirect_lighting, hk, compute_indirect_lightingF]
  simp only [cubeDir] at h ⊢
  simp only [if_neg h]
  rw [radianceF_eq_radiance k scene _ (depth + 1) rest
    (by simp only [indFuel, List.length_cons] at hk; simp only [radFuel]; omega)]

/-- Unfolding lemma: with fewer than three samples left in the stream the
model of `compute_indirect_lighting` reports stream exhaustion. -/
theorem compute_indirect_short (scene : Scene) (sphere : Sphere) (p : Vec3)
    (depth : Nat) (rands : List ℚ) (h : rands.length < 3) :
    compute_indirect_lighting scene sphere p depth rands =
      Except.error RtErr.randOut := by
  rcases rands with _ | ⟨u, _ | ⟨v, _ | ⟨w, rest⟩⟩⟩
  · obtain ⟨k, hk⟩ : ∃ k, indFuel depth ([] : List ℚ) = k + 1 :=
      ⟨indFuel depth ([] : List ℚ) - 1, by simp only [indFuel]; omega⟩
    rw [compute_indirect_lighting, hk, compute_indirect_lightingF]
  · obtain ⟨k, hk⟩ : ∃ k, indFuel depth [u] = k + 1 :=
      ⟨indFuel depth [u] - 1, by simp only [indFuel]; omega⟩
    rw [compute_indirect_lighting, hk, compute_indirect_lightingF]
  · obtain ⟨k, hk⟩ : ∃ k, indFuel depth [u, v] = k + 1 :=
      ⟨indFuel depth [u, v] - 1, by simp only [indFuel]; omega⟩
    rw [compute_indirect_lighting, hk, compute_indirect_lightingF]
  · exact absurd h (by simp)

/-- The test sphere of the specification examples: center `(10,0,0)`,
radius `3` (material and colors irrelevant to intersection). -/
def c2sphere : Sphere :=
  ⟨3, Vec3.new 10 0 0, Vec3.new 0 0 0, Vec3.new 0 0 0, Material.Diffuse⟩

/-- Ray from `(2,0,0)` toward `+x`. -/
def c2rayFront : Ray := ⟨Vec3.new 2 0 0, Vec3.new 1 0 0⟩

/-- Ray from the sphere center `(10,0,0)` toward `+x`. -/
def c2rayInside : Ray := ⟨Vec3.new 10 0 0, Vec3.new 1 0 0⟩

/-- Ray from `(15,0,0)` toward `+x` (sphere entirely behind). -/
def c2rayBehind : Ray := ⟨Vec3.new 15 0 0, Vec3.new 1 0 0⟩

/-- Ray from `(0,5,0)` toward `+x`, missing the sphere sideways. -/
def c2rayMiss : Ray := ⟨Vec3.new 0 5 0, Vec3.new 1 0 0⟩

/-- Claim C2: `intersect` solves the quadratic with `a = |d|^2`,
`b = -2 d . (C-O)`, `c = |C-O|^2 - r^2`; a negative discriminant yields no
hit, otherwise the smaller root is returned if non-negative, else the larger
root if non-negative, else no hit; consequently every reported hit has a
non-negative `t`.  On sphere center `(10,0,0)` radius `3` with direction
`(1,0,0)`: origin `(2,0,0)` gives `t = 5`, origin `(10,0,0)` gives `t = 3`,
origin `(15,0,0)` gives no hit. -/
theorem claim2_intersect :
    (∀ (s : Sphere) (r : Ray) (res : Intersect),
      intersect s r = some res → 0 ≤ res.t) ∧
    (∀ (s : Sphere) (r : Ray),
      (let a := r.direction.length2
       let b := -2 * r.direction.dot (s.center.sub r.origin)
       let c := (s.center.sub r.origin).length2 - s.radius * s.radius
       b * b - 4 * a * c < 0) → intersect s r = none) ∧
    intersect c2sphere c2rayFront = some ⟨5, c2sphere⟩ ∧
    intersect c2sphere c2rayInside = some ⟨3, c2sphere⟩ ∧
    intersect c2sphere c2rayBehind = none := by
  have h36 : ratSqrt 36 = 6 := ratSqrt_eval 36 6 (by norm_num) (by norm_num)
  refine ⟨?_, ?_, ?_, ?_, ?_⟩
  · intro s r res h
    rw [intersect] at h
    simp only [] at h
    split_ifs at h with h1 h2 h3
    · cases h
      exact h2
    · cases h
      exact h3
  · intro s r hdet
    rw [intersect]
    simp only [] at hdet ⊢
    rw [if_pos hdet]
  · norm_num [intersect, Vec3.dot, Vec3.length2, Vec3.sub, Vec3.mul, Vec3.new,
      Vec3.mulf, c2sphere, c2rayFront, h36]
  · norm_num [intersect, Vec3.dot, Vec3.length2, Vec3.sub, Vec3.mul, Vec3.new,
      Vec3.mulf, c2sphere, c2rayInside, h36]
  · norm_num [intersect, Vec3.dot, Vec3.length2, Vec3.sub, Vec3.mul, Vec3.new,
      Vec3.mulf, c2sphere, c2rayBehind, h36]

/-- Witness for C2: the universally quantified parts applied at concrete
inputs, hypotheses discharged by evaluation. -/
theorem claim2_intersect_witness :
    0 ≤ (Intersect.mk 5 c2sphere).t ∧ intersect c2sphere c2rayMiss = none :=
  ⟨claim2_intersect.1 c2sphere c2rayFront ⟨5, c2sphere⟩ claim2_intersect.2.2.1,
    claim2_intersect.2.1 c2sphere c2rayMiss
      (by norm_num [Vec3.dot, Vec3.length2, Vec3.sub, Vec3.mul, Vec3.new,
        c2sphere, c2rayMiss])⟩

/-- `stepIntersect` keeps the accumulator when the new sphere misses. -/
theorem stepIntersect_none (ray : Ray) (init : Option Intersect) (s : Sphere)
    (hs : intersect s ray = none) : stepIntersect ray init s = init := by
  rw [stepIntersect, hs]

/-- `stepIntersect` adopts the first hit. -/
theorem stepIntersect_some_none (ray : Ray) (s : Sphere) (r1 : Intersect)
    (hs : intersect s ray = some r1) : stepIntersect ray none s = some r1 := by
  rw [stepIntersect, hs]

/-- `stepIntersect` replaces the accumulator by a strictly nearer hit. -/
theorem stepIntersect_some_lt (ray : Ray) (s : Sphere) (r0 r1 : Intersect)
    (hs : intersect s ray = some r1) (hlt : r1.t < r0.t) :
    stepIntersect ray (some r0) s = some r1 := by
  rw [stepIntersect, hs]
  simp [hlt]

/-- `stepIntersect` keeps the accumulator on a tie or a farther hit. -/
theorem stepIntersect_some_ge (ray : Ray) (s : Sphere) (r0 r1 : Intersect)
    (hs : intersect s ray = some r1) (hge : ¬ r1.t < r0.t) :
    stepIntersect ray (some r0) s = some r0 := by
  rw [stepIntersect, hs]
  simp [hge]

/-- Every intersection record returned by `intersect` carries the tested
sphere. -/
theorem intersect_sphere_eq (s : Sphere) (ray : Ray) (res : Intersect)
    (h : intersect s ray = some res) : res.sphere = s := by
  rw [intersect] at h
  simp only [] at h
  split_ifs at h <;> cases h <;> rfl

/-- The nearest-hit fold returns `none` exactly when the accumulator is
`none` and every sphere of the list misses. -/
theorem foldl_intersect_none_iff (ray : Ray) :
    ∀ (l : List Sphere) (init : Option Intersect),
      l.foldl (stepIntersect ray) init = none ↔
        init = none ∧ ∀ s ∈ l, intersect s ray = none := by
  intro l
  induction l with
  | nil =>
    intro init
    simp
  | cons s l ihl =>
    intro init
    rw [List.foldl_cons, ihl]
    constructor
    · rintro ⟨h1, h2⟩
      rcases hs : intersect s ray with _ | r1
      · rw [stepIntersect_none ray init s hs] at h1
        refine ⟨h1, ?_⟩
        intro s2 hs2
        rcases List.mem_cons.mp hs2 with rfl | hmem
        · exact hs
        · exact h2 s2 hmem
      · exfalso
        rcases init with _ | r0
        · rw [stepIntersect_some_none ray s r1 hs] at h1
          cases h1
        · by_cases hlt : r1.t < r0.t
          · rw [stepIntersect_some_lt ray s r0 r1 hs hlt] at h1
            cases h1
          · rw [stepIntersect_some_ge ray s r0 r1 hs hlt] at h1
            cases h1
    · rintro ⟨h1, h2⟩
      subst h1
      rw [stepIntersect_none ray none s (h2 s (List.mem_cons_self s l))]
      exact ⟨rfl, fun s2 hs2 => h2 s2 (List.mem_cons_of_mem s hs2)⟩

/-- Characterization of a successful nearest-hit fold: the result either
survives from the accumulator (and no listed hit beats it), or is produced by
a sphere of the list that strictly beats the accumulator and everything
before it, with nothing after it strictly nearer. -/
theorem foldl_intersect_some (ray : Ray) :
    ∀ (l : List Sphere) (init : Option Intersect) (res : Intersect),
      l.foldl (stepIntersect ray) init = some res →
      (init = some res ∧
        ∀ s ∈ l, ∀ r2 : Intersect, intersect s ray = some r2 → res.t ≤ r2.t) ∨
      (∃ l1 st l2, l = l1 ++ st :: l2 ∧ intersect st ray = some res ∧
        (∀ r0 : Intersect, init = some r0 → res.t < r0.t) ∧
        (∀ s2 ∈ l1, ∀ r2 : Intersect, intersect s2 ray = some r2 → res.t < r2.t) ∧
        (∀ s2 ∈ l2, ∀ r2 : Intersect, intersect s2 ray = some r2 → res.t ≤ r2.t)) := by
  intro l
  induction l with
  | nil =>
    intro init res h
    left
    exact ⟨h, by simp⟩
  | cons s l ihl =>
    intro init res h
    rw [List.foldl_cons] at h
    rcases ihl (stepIntersect ray init s) res h with ⟨h1, h2⟩ | ⟨l1, st, l2, hdec, hw, hinit, hl1, hl2⟩
    · rcases hs : intersect s ray with _ | r1
      · rw [stepIntersect_none ray init s hs] at h1
        left
        refine ⟨h1, ?_⟩
        intro s2 hs2 r2 hr2
        rcases List.mem_cons.mp hs2 with rfl | hmem
        · rw [hs] at hr2
          cases hr2
        · exact h2 s2 hmem r2 hr2
      · rcases init with _ | r0
        · rw [stepIntersect_some_none ray s r1 hs] at h1
          cases h1
          right
          refine ⟨[], s, l, by simp, hs, ?_, by simp, h2⟩
          intro r0 hr0
          cases hr0
        · by_cases hlt : r1.t < r0.t
          · rw [stepIntersect_some_lt ray s r0 r1 hs hlt] at h1
            cases h1
            right
            refine ⟨[], s, l, by simp, hs, ?_, by simp, h2⟩
            intro r2 hr2
            cases hr2
            exact hlt
          · rw [stepIntersect_some_ge ray s r0 r1 hs hlt] at h1
            left
            refine ⟨h1, ?_⟩
            intro s2 hs2 r2 hr2
            rcases List.mem_cons.mp hs2 with rfl | hmem
            · rw [hs] at hr2
              cases hr2
              cases h1
              exact le_of_not_lt hlt
            · exact h2 s2 hmem r2 hr2
    · right
      refine ⟨s :: l1, st, l2, by rw [hdec, List.cons_append], hw, ?_, ?_, hl2⟩
      · intro r0 hr0
        subst hr0
        rcases hs : intersect s ray with _ | r1
        · exact hinit r0 (stepIntersect_none ray (some r0) s hs)
        · by_cases hlt : r1.t < r0.t
          · exact lt_trans (hinit r1 (stepIntersect_some_lt ray s r0 r1 hs hlt)) hlt
          · exact hinit r0 (stepIntersect_some_ge ray s r0 r1 hs hlt)
      · intro s2 hs2 r2 hr2
        rcases List.mem_cons.mp hs2 with rfl | hmem
        · rcases init with _ | r0
          · exact hinit r2 (stepIntersect_some_none ray s2 r2 hr2)
          · by_cases hlt : r2.t < r0.t
            · exact hinit r2 (stepIntersect_some_lt ray s2 r0 r2 hr2 hlt)
            · exact lt_of_lt_of_le
                (hinit r0 (stepIntersect_some_ge ray s2 r0 r2 hr2 hlt))
                (le_of_not_lt hlt)
        · exact hl1 s2 hmem r2 hr2

/-- Claim C3: `intersect_scene` returns `none` exactly when every sphere
misses; otherwise it returns a hit of some sphere of the scene whose `t` is
minimal among all per-sphere hits, and every sphere scanned before the
winner either misses or has a strictly larger `t` (so on a tie the sphere
encountered first wins). -/
theorem claim3_intersect_scene :
    (∀ (scene : Scene) (ray : Ray),
      intersect_scene scene ray = none ↔
        ∀ s ∈ scene.spheres, intersect s ray = none) ∧
    (∀ (scene : Scene) (ray : Ray) (res : Intersect),
      intersect_scene scene ray = some res →
        (∃ l1 l2, scene.spheres = l1 ++ res.sphere :: l2 ∧
          intersect res.sphere ray = some res ∧
          (∀ s2 ∈ l1, ∀ r2 : Intersect,
            intersect s2 ray = some r2 → res.t < r2.t)) ∧
        (∀ s2 ∈ scene.spheres, ∀ r2 : Intersect,
          intersect s2 ray = some r2 → res.t ≤ r2.t)) := by
  constructor
  · intro scene ray
    rw [intersect_scene, foldl_intersect_none_iff]
    simp
  · intro scene ray res h
    rw [intersect_scene] at h
    rcases foldl_intersect_some ray scene.spheres none res h with
      ⟨h1, _⟩ | ⟨l1, st, l2, hdec, hw, _, hl1, hl2⟩
    · cases h1
    · have hst : res.sphere = st := intersect_sphere_eq st ray res hw
      constructor
      · exact ⟨l1, l2, by rw [hdec, hst], by rw [hst]; exact hw, hl1⟩
      · intro s2 hs2 r2 hr2
        rw [hdec] at hs2
        rcases List.mem_append.mp hs2 with hmem | hmem
        · exact le_of_lt (hl1 s2 hmem r2 hr2)
        · rcases List.mem_cons.mp hmem with rfl | hmem2
          · rw [hw] at hr2
            cases hr2
            exact le_refl _
          · exact hl2 s2 hmem2 r2 hr2

/-- First sphere of the C3 witness scene: center `(5,0,0)`, radius 1; the
ray from the origin along `+x` hits it at `t = 4`. -/
def c3sA : Sphere :=
  ⟨1, Vec3.new 5 0 0, Vec3.new 0 0 0, Vec3.new 0 0 0, Material.Diffuse⟩

/-- Second sphere of the C3 witness scene: center `(7,0,0)`, radius 3; the
same ray also hits it at `t = 4` (an exact tie with `c3sA`). -/
def c3sB : Sphere :=
  ⟨3, Vec3.new 7 0 0, Vec3.new 0 0 0, Vec3.new 0 0 0, Material.Diffuse⟩

/-- The C3 witness scene: two overlapping spheres hit at the same `t`. -/
def c3scene : Scene := ⟨[c3sA, c3sB], []⟩

/-- The C3 witness ray: from the origin along `+x`. -/
def c3ray : Ray := ⟨Vec3.new 0 0 0, Vec3.new 1 0 0⟩

/-- Witness for C3: on the tie scene the scan returns the hit of the first
sphere, and that hit is globally minimal. -/
theorem claim3_intersect_scene_witness :
    (∃ l1 l2, c3scene.spheres = l1 ++ (Intersect.mk 4 c3sA).sphere :: l2 ∧
      intersect (Intersect.mk 4 c3sA).sphere c3ray = some (Intersect.mk 4 c3sA) ∧
      (∀ s2 ∈ l1, ∀ r2 : Intersect,
        intersect s2 c3ray = some r2 → (Intersect.mk 4 c3sA).t < r2.t)) ∧
    (∀ s2 ∈ c3scene.spheres, ∀ r2 : Intersect,
      intersect s2 c3ray = some r2 → (Intersect.mk 4 c3sA).t ≤ r2.t) := by
  have h4 : ratSqrt 4 = 2 := ratSqrt_eval 4 2 (by norm_num) (by norm_num)
  have h36 : ratSqrt 36 = 6 := ratSqrt_eval 36 6 (by norm_num) (by norm_num)
  refine claim3_intersect_scene.2 c3scene c3ray ⟨4, c3sA⟩ ?_
  norm_num [intersect_scene, stepIntersect, intersect, List.foldl_cons,
    List.foldl_nil, Vec3.dot, Vec3.length2, Vec3.sub, Vec3.mul, Vec3.new,
    c3scene, c3sA, c3sB, c3ray, h4, h36]

/-- The occlusion test of `compute_direct_lighting`, as a standalone
predicate: the shadow ray from `p` (origin offset by `0.01` along the
normalized direction toward the light) hits some sphere at a distance
strictly smaller than the distance to the light. -/
def directOccluded (scene : Scene) (light : Light) (p : Vec3) : Bool :=
  let sphere_to_light := light.position.sub p
  let d := ratSqrt sphere_to_light.length2
  let dir := sphere_to_light.mulf (1 / d)
  match intersect_scene scene ⟨p.add (dir.mulf (1 / 100)), dir⟩ with
  | none => false
  | some it => decide (it.t < d)

/-- `compute_direct_lighting` as a case split on `directOccluded`: zero when
occluded, and otherwise the Lambertian inverse-square formula
`color * (|n . l| / (3.14159 * d^2)) * emission`. -/
theorem compute_direct_lighting_eq (scene : Scene) (sphere : Sphere)
    (light : Light) (p : Vec3) :
    compute_direct_lighting scene sphere light p =
      if directOccluded scene light p then Vec3.new 0 0 0
      else
        (sphere.color.mulf
            (abs (((p.sub sphere.center).normalize).dot
                ((light.position.sub p).mulf
                  (1 / ratSqrt (light.position.sub p).length2))) /
              (314159 / 100000 * (light.position.sub p).length2))).mul
          light.emission := by
  rw [compute_direct_lighting, directOccluded]

/-- Claim C4: `radiance` returns black past the depth cap of 3 and on a
miss, and an occluded direct-lighting query returns the zero vector; none of
the three outcomes is an error. -/
theorem claim4_radiance_terminals :
    (∀ (scene : Scene) (ray : Ray) (depth : Nat) (rands : List ℚ),
      3 < depth → radiance scene ray depth rands = Except.ok (Vec3.new 0 0 0)) ∧
    (∀ (scene : Scene) (ray : Ray) (depth : Nat) (rands : List ℚ),
      intersect_scene scene ray = none →
        radiance scene ray depth rands = Except.ok (Vec3.new 0 0 0)) ∧
    (∀ (scene : Scene) (sphere : Sphere) (light : Light) (p : Vec3),
      directOccluded scene light p = true →
        compute_direct_lighting scene sphere light p = Vec3.new 0 0 0) := by
  refine ⟨?_, ?_, ?_⟩
  · intro scene ray depth rands h
    exact radiance_depth_exceeded scene ray depth rands h
  · intro scene ray depth rands hm
    by_cases h : 3 < depth
    · exact radiance_depth_exceeded scene ray depth rands h
    · exact radiance_miss scene ray depth rands h hm
  · intro scene sphere light p hocc
    rw [compute_direct_lighting_eq, if_pos hocc]

/-- The empty scene used by several witnesses: no spheres, no lights. -/
def emptyScene : Scene := ⟨[], []⟩

/-- A blocking sphere for the occlusion witnesses: center `(0,0,5)`,
radius 1. -/
def c4blocker : Sphere :=
  ⟨1, Vec3.new 0 0 5, Vec3.new 0 0 0, Vec3.new 0 0 0, Material.Diffuse⟩

/-- A light at `(0,0,10)`, occluded from the origin by `c4blocker`. -/
def c4light : Light := ⟨Vec3.new 0 0 10, Vec3.new 1 1 1⟩

/-- The occlusion witness scene: just the blocking sphere. -/
def c4scene : Scene := ⟨[c4blocker], [c4light]⟩

/-- Witness for C4: the three terminal outcomes, each at a concrete input
with its hypothesis discharged by evaluation. -/
theorem claim4_radiance_terminals_witness :
    radiance emptyScene c3ray 4 [] = Except.ok (Vec3.new 0 0 0) ∧
    radiance emptyScene c3ray 0 [] = Except.ok (Vec3.new 0 0 0) ∧
    compute_direct_lighting c4scene c2sphere c4light (Vec3.new 0 0 0) =
      Vec3.new 0 0 0 := by
  have h100 : ratSqrt 100 = 10 := ratSqrt_eval 100 10 (by norm_num) (by norm_num)
  have h4 : ratSqrt 4 = 2 := ratSqrt_eval 4 2 (by norm_num) (by norm_num)
  refine ⟨claim4_radiance_terminals.1 emptyScene c3ray 4 [] (by norm_num),
    claim4_radiance_terminals.2.1 emptyScene c3ray 0 [] (by rfl),
    claim4_radiance_terminals.2.2 c4scene c2sphere c4light (Vec3.new 0 0 0) ?_⟩
  norm_num [directOccluded, intersect_scene, stepIntersect, intersect,
    List.foldl_cons, List.foldl_nil, Vec3.dot, Vec3.length2, Vec3.sub,
    Vec3.mul, Vec3.mulf, Vec3.add, Vec3.new, c4scene, c4blocker, c4light,
    h100, h4]

/-- The C6 sphere: unit sphere at the origin with black surface color. -/
def c6sphere : Sphere :=
  ⟨1, Vec3.new 0 0 0, Vec3.new 0 0 0, Vec3.new 0 0 0, Material.Diffuse⟩

/-- The C6 light: above the sphere at `(0,0,5)`. -/
def c6light : Light := ⟨Vec3.new 0 0 5, Vec3.new 1 1 1⟩

/-- The C6 scene: just the black sphere and the light. -/
def c6scene : Scene := ⟨[c6sphere], [c6light]⟩

/-- Counterexample for C6: at the unoccluded point `(0,0,1)` of a black
sphere the direct-lighting contribution is the zero vector even though the
shadow ray hits nothing, so "the contribution is zero exactly when the
shadow ray hits some sphere closer than the light" fails in the
left-to-right direction. -/
theorem claim6_counterexample :
    compute_direct_lighting c6scene c6sphere c6light (Vec3.new 0 0 1) =
      Vec3.new 0 0 0 ∧
    directOccluded c6scene c6light (Vec3.new 0 0 1) = false := by
  have h16 : ratSqrt 16 = 4 := ratSqrt_eval 16 4 (by norm_num) (by norm_num)
  have h1 : ratSqrt 1 = 1 := ratSqrt_eval 1 1 (by norm_num) (by norm_num)
  have h4 : ratSqrt 4 = 2 := ratSqrt_eval 4 2 (by norm_num) (by norm_num)
  constructor
  · norm_num [compute_direct_lighting, intersect_scene, stepIntersect,
      intersect, List.foldl_cons, List.foldl_nil, Vec3.dot, Vec3.length2,
      Vec3.sub, Vec3.mul, Vec3.mulf, Vec3.add, Vec3.new, Vec3.normalize,
      c6scene, c6sphere, c6light, h16, h1, h4]
  · norm_num [directOccluded, intersect_scene, stepIntersect, intersect,
      List.foldl_cons, List.foldl_nil, Vec3.dot, Vec3.length2, Vec3.sub,
      Vec3.mul, Vec3.mulf, Vec3.add, Vec3.new, c6scene, c6sphere, c6light,
      h16, h1, h4]

/-- Claim C6 as amended: the direct-lighting contribution is zero whenever
the shadow ray hits some sphere strictly closer than the light, and
otherwise equals `surfaceColor * |n . l| / (3.14159 * d^2) * lightEmission`
componentwise (which may itself be zero, e.g. for a black surface, so
occlusion is sufficient but not necessary for a zero contribution). -/
theorem claim6_direct_lighting :
    ∀ (scene : Scene) (sphere : Sphere) (light : Light) (p : Vec3),
      (directOccluded scene light p = true →
        compute_direct_lighting scene sphere light p = Vec3.new 0 0 0) ∧
      (directOccluded scene light p = false →
        compute_direct_lighting scene sphere light p =
          (sphere.color.mulf
              (abs (((p.sub sphere.center).normalize).dot
                  ((light.position.sub p).mulf
                    (1 / ratSqrt (light.position.sub p).length2))) /
                (314159 / 100000 * (light.position.sub p).length2))).mul
            light.emission) := by
  intro scene sphere light p
  constructor
  · intro hocc
    rw [compute_direct_lighting_eq, if_pos hocc]
  · intro hocc
    rw [compute_direct_lighting_eq, if_neg (by simp [hocc])]

/-- Witness for C6 (amended): both branches at concrete inputs, hypotheses
discharged by evaluation. -/
theorem claim6_direct_lighting_witness :
    compute_direct_lighting c4scene c2sphere c4light (Vec3.new 0 0 0) =
      Vec3.new 0 0 0 ∧
    compute_direct_lighting c6scene c6sphere c6light (Vec3.new 0 0 1) =
      (c6sphere.color.mulf
          (abs ((((Vec3.new 0 0 1).sub c6sphere.center).normalize).dot
              ((c6light.position.sub (Vec3.new 0 0 1)).mulf
                (1 / ratSqrt (c6light.position.sub (Vec3.new 0 0 1)).length2))) /
            (314159 / 100000 *
              (c6light.position.sub (Vec3.new 0 0 1)).length2))).mul
        c6light.emission := by
  have h100 : ratSqrt 100 = 10 := ratSqrt_eval 100 10 (by norm_num) (by norm_num)
  have h16 : ratSqrt 16 = 4 := ratSqrt_eval 16 4 (by norm_num) (by norm_num)
  have h1 : ratSqrt 1 = 1 := ratSqrt_eval 1 1 (by norm_num) (by norm_num)
  have h4 : ratSqrt 4 = 2 := ratSqrt_eval 4 2 (by norm_num) (by norm_num)
  constructor
  · refine (claim6_direct_lighting c4scene c2sphere c4light (Vec3.new 0 0 0)).1 ?_
    norm_num [directOccluded, intersect_scene, stepIntersect, intersect,
      List.foldl_cons, List.foldl_nil, Vec3.dot, Vec3.length2, Vec3.sub,
      Vec3.mul, Vec3.mulf, Vec3.add, Vec3.new, c4scene, c4blocker, c4light,
      h100, h4]
  · refine (claim6_direct_lighting c6scene c6sphere c6light (Vec3.new 0 0 1)).2 ?_
    norm_num [directOccluded, intersect_scene, stepIntersect, intersect,
      List.foldl_cons, List.foldl_nil, Vec3.dot, Vec3.length2, Vec3.sub,
      Vec3.mul, Vec3.mulf, Vec3.add, Vec3.new, c6scene, c6sphere, c6light,
      h16, h1, h4]

/-- Model of `f32::copysign(1.0, n.z)`: `-1` for negative `z`, else `1`
(`ℚ` has no negative zero, so the sign-bit test collapses to an order
test). -/
def rsign (z : ℚ) : ℚ := if z < 0 then -1 else 1

/-- The branchless orthonormal-basis construction (`branchless_onb` in the
source, after Duff et al.): two tangent vectors built from the normal with
the sign trick `a = -1 / (sign + n.z)`. -/
def branchless_onb (n : Vec3) : Vec3 × Vec3 :=
  let sign := rsign n.z
  let a := -1 / (sign + n.z)
  let b := n.x * n.y * a
  (Vec3.new (1 + sign * n.x * n.x * a) (sign * b) (-sign * n.x),
    Vec3.new b (sign + n.y * n.y * a) (-n.y))

/-- Claim C9: for every unit normal (squared length 1, which covers the pole
cases `z = 1`, `z = -1` and the equatorial case `z = 0`) the two vectors of
`branchless_onb` have squared length 1, are orthogonal to each other and to
the normal, and the single denominator `sign + z` of the construction is
never zero. -/
theorem claim9_branchless_onb :
    ∀ n : Vec3, n.length2 = 1 →
      ((branchless_onb n).1).length2 = 1 ∧
      ((branchless_onb n).2).length2 = 1 ∧
      ((branchless_onb n).1).dot ((branchless_onb n).2) = 0 ∧
      n.dot ((branchless_onb n).1) = 0 ∧
      n.dot ((branchless_onb n).2) = 0 ∧
      rsign n.z + n.z ≠ 0 := by
  rintro ⟨x, y, z⟩ h
  simp only [Vec3.length2] at h
  by_cases hz : z < 0
  · have hD : -1 + z ≠ 0 := by intro hc; linarith
    refine ⟨?_, ?_, ?_, ?_, ?_, ?_⟩ <;>
      simp only [branchless_onb, rsign, Vec3.length2, Vec3.dot, Vec3.mul,
        Vec3.new, if_pos hz]
    · field_simp
      first
      | linear_combination (x * x) * h
      | linear_combination (-(x * x)) * h
      | linear_combination (x * x * (-1 + z)) * h
      | linear_combination (-(x * x * (-1 + z))) * h
      | linear_combination (x * x * (-1 + z) * (-1 + z)) * h
      | linear_combination (-(x * x * (-1 + z) * (-1 + z))) * h
    · field_simp
      first
      | linear_combination (y * y) * h
      | linear_combination (-(y * y)) * h
      | linear_combination (y * y * (-1 + z)) * h
      | linear_combination (-(y * y * (-1 + z))) * h
      | linear_combination (y * y * (-1 + z) * (-1 + z)) * h
      | linear_combination (-(y * y * (-1 + z) * (-1 + z))) * h
    · field_simp
      first
      | linear_combination (x * y) * h
      | linear_combination (-(x * y)) * h
      | linear_combination (x * y * (-1 + z)) * h
      | linear_combination (-(x * y * (-1 + z))) * h
      | linear_combination (x * y * (-1 + z) * (-1 + z)) * h
      | linear_combination (-(x * y * (-1 + z) * (-1 + z))) * h
    · field_simp
      first
      | linear_combination x * h
      | linear_combination (-x) * h
      | linear_combination (x * (-1 + z)) * h
      | linear_combination (-(x * (-1 + z))) * h
      | linear_combination (x * (-1 + z) * (-1 + z)) * h
      | linear_combination (-(x * (-1 + z) * (-1 + z))) * h
    · field_simp
      first
      | linear_combination y * h
      | linear_combination (-y) * h
      | linear_combination (y * (-1 + z)) * h
      | linear_combination (-(y * (-1 + z))) * h
      | linear_combination (y * (-1 + z) * (-1 + z)) * h
      | linear_combination (-(y * (-1 + z) * (-1 + z))) * h
    · exact hD
  · have hz2 : 0 ≤ z := not_lt.mp hz
    have hD : 1 + z ≠ 0 := by intro hc; linarith
    refine ⟨?_, ?_, ?_, ?_, ?_, ?_⟩ <;>
      simp only [branchless_onb, rsign, Vec3.length2, Vec3.dot, Vec3.mul,
        Vec3.new, if_neg hz]
    · field_simp
      first
      | linear_combination (x * x) * h
      | linear_combination (-(x * x)) * h
      | linear_combination (x * x * (1 + z)) * h
      | linear_combination (-(x * x * (1 + z))) * h
      | linear_combination (x * x * (1 + z) * (1 + z)) * h
      | linear_combination (-(x * x * (1 + z) * (1 + z))) * h
    · field_simp
      first
      | linear_combination (y * y) * h
      | linear_combination (-(y * y)) * h
      | linear_combination (y * y * (1 + z)) * h
      | linear_combination (-(y * y * (1 + z))) * h
      | linear_combination (y * y * (1 + z) * (1 + z)) * h
      | linear_combination (-(y * y * (1 + z) * (1 + z))) * h
    · field_simp
      first
      | linear_combination (x * y) * h
      | linear_combination (-(x * y)) * h
      | linear_combination (x * y * (1 + z)) * h
      | linear_combination (-(x * y * (1 + z))) * h
      | linear_combination (x * y * (1 + z) * (1 + z)) * h
      | linear_combination (-(x * y * (1 + z) * (1 + z))) * h
    · field_simp
      first
      | linear_combination x * h
      | linear_combination (-x) * h
      | linear_combination (x * (1 + z)) * h
      | linear_combination (-(x * (1 + z))) * h
      | linear_combination (x * (1 + z) * (1 + z)) * h
      | linear_combination (-(x * (1 + z) * (1 + z))) * h
    · field_simp
      first
      | linear_combination y * h
      | linear_combination (-y) * h
      | linear_combination (y * (1 + z)) * h
      | linear_combination (-(y * (1 + z))) * h
      | linear_combination (y * (1 + z) * (1 + z)) * h
      | linear_combination (-(y * (1 + z) * (1 + z))) * h
    · exact hD

/-- Witness for C9: the north-pole normal `(0,0,1)`, where the naive
construction would divide by `1 - z.z`; the basis is exact. -/
theorem claim9_branchless_onb_witness :
    ((branchless_onb (Vec3.new 0 0 1)).1).length2 = 1 ∧
    ((branchless_onb (Vec3.new 0 0 1)).2).length2 = 1 ∧
    ((branchless_onb (Vec3.new 0 0 1)).1).dot
      ((branchless_onb (Vec3.new 0 0 1)).2) = 0 ∧
    (Vec3.new 0 0 1).dot ((branchless_onb (Vec3.new 0 0 1)).1) = 0 ∧
    (Vec3.new 0 0 1).dot ((branchless_onb (Vec3.new 0 0 1)).2) = 0 ∧
    rsign (Vec3.new 0 0 1).z + (Vec3.new 0 0 1).z ≠ 0 :=
  claim9_branchless_onb (Vec3.new 0 0 1)
    (by norm_num [Vec3.length2, Vec3.new])

/-- Truncation toward zero with `i32` saturation: the meaning of a Rust
`as i32` cast applied to a real value.  (`NaN`, which has no real
counterpart, is sent to 0 by Rust; every claim below concerns the real
range.) -/
noncomputable def asI32 (x : ℝ) : ℤ :=
  if x < -2147483648 then -2147483648
  else if 2147483647 < x then 2147483647
  else if 0 ≤ x then ⌊x⌋
  else -⌊-x⌋

/-- `tonemap` of the source, over the reals: `0` for nonpositive input,
`255` for input at least `1`, else the gamma correction
`(x powf (1/2.2)) * 255` cast to `i32`. -/
noncomputable def tonemap (x : ℝ) : ℤ :=
  if x ≤ 0 then 0
  else if 1 ≤ x then 255
  else asI32 (x ^ ((1 : ℝ) / 2.2) * 255)

/-- On the open unit interval `tonemap` is the floor of the gamma curve. -/
theorem tonemap_mid (x : ℝ) (hx0 : 0 < x) (hx1 : x < 1) :
    tonemap x = ⌊x ^ ((1 : ℝ) / 2.2) * 255⌋ := by
  have hg0 : 0 ≤ x ^ ((1 : ℝ) / 2.2) * 255 :=
    mul_nonneg (Real.rpow_nonneg hx0.le _) (by norm_num)
  have hg1 : x ^ ((1 : ℝ) / 2.2) * 255 < 255 := by
    have h : x ^ ((1 : ℝ) / 2.2) < 1 := Real.rpow_lt_one hx0.le hx1 (by norm_num)
    nlinarith
  rw [tonemap, if_neg (not_le.mpr hx0), if_neg (not_le.mpr hx1), asI32,
    if_neg (not_lt.mpr (by linarith)), if_neg (not_lt.mpr (by linarith)),
    if_pos hg0]

/-- Claim C8: `tonemap` is total with values in `[0, 255]`, maps `0` to `0`
and `1` to `255`, is monotone non-decreasing on `[0,1]` (floor of the
increasing gamma curve there), and clamps every input below `0` to `0` and
every input above `1` to `255`; no input produces anything but an integer in
range (the real model has no `NaN`; Rust additionally casts a `NaN` gamma
value to `0`, also in range). -/
theorem claim8_tonemap :
    (∀ x : ℝ, 0 ≤ tonemap x ∧ tonemap x ≤ 255) ∧
    tonemap 0 = 0 ∧
    tonemap 1 = 255 ∧
    (∀ x y : ℝ, 0 ≤ x → x ≤ y → y ≤ 1 → tonemap x ≤ tonemap y) ∧
    (∀ x : ℝ, x < 0 → tonemap x = 0) ∧
    (∀ x : ℝ, 1 < x → tonemap x = 255) := by
  have hrange : ∀ x : ℝ, 0 ≤ tonemap x ∧ tonemap x ≤ 255 := by
    intro x
    by_cases hx0 : x ≤ 0
    · rw [tonemap, if_pos hx0]
      norm_num
    · by_cases hx1 : (1 : ℝ) ≤ x
      · rw [tonemap, if_neg hx0, if_pos hx1]
        norm_num
      · push_neg at hx0 hx1
        rw [tonemap_mid x hx0 hx1]
        have hg0 : 0 ≤ x ^ ((1 : ℝ) / 2.2) * 255 :=
          mul_nonneg (Real.rpow_nonneg hx0.le _) (by norm_num)
        have hg1 : x ^ ((1 : ℝ) / 2.2) * 255 < 255 := by
          have h : x ^ ((1 : ℝ) / 2.2) < 1 :=
            Real.rpow_lt_one hx0.le hx1 (by norm_num)
          nlinarith
        constructor
        · exact Int.floor_nonneg.mpr hg0
        · exact (Int.floor_lt.mpr (by exact_mod_cast hg1)).le
  refine ⟨hrange, ?_, ?_, ?_, ?_, ?_⟩
  · rw [tonemap, if_pos le_rfl]
  · rw [tonemap, if_neg (by norm_num), if_pos le_rfl]
  · intro x y hx hxy hy1
    by_cases hx0 : x ≤ 0
    · have hx255 : tonemap x = 0 := by rw [tonemap, if_pos hx0]
      rw [hx255]
      exact (hrange y).1
    · by_cases hy2 : (1 : ℝ) ≤ y
      · have hy255 : tonemap y = 255 := by
          rw [tonemap, if_neg (by push_neg at hx0; linarith), if_pos hy2]
        rw [hy255]
        exact (hrange x).2
      · push_neg at hx0 hy2
        have hx1 : x < 1 := lt_of_le_of_lt hxy hy2
        have hy0 : 0 < y := lt_of_lt_of_le hx0 hxy
        rw [tonemap_mid x hx0 hx1, tonemap_mid y hy0 hy2]
        apply Int.floor_le_floor
        have := Real.rpow_le_rpow hx0.le hxy (by norm_num : (0:ℝ) ≤ 1 / 2.2)
        nlinarith
  · intro x hx
    rw [tonemap, if_pos hx.le]
  · intro x hx
    rw [tonemap, if_neg (by linarith), if_pos hx.le]

/-- Witness for C8: monotonicity inside the unit interval and both clamps at
concrete inputs with the hypotheses discharged numerically. -/
theorem claim8_tonemap_witness :
    tonemap (1 / 4 : ℝ) ≤ tonemap (1 / 2 : ℝ) ∧
    tonemap (-1 : ℝ) = 0 ∧
    tonemap (2 : ℝ) = 255 :=
  ⟨claim8_tonemap.2.2.2.1 (1 / 4) (1 / 2) (by norm_num) (by norm_num)
      (by norm_num),
    claim8_tonemap.2.2.2.2.1 (-1) (by norm_num),
    claim8_tonemap.2.2.2.2.2 2 (by norm_num)⟩

/-- Replace Glass by Mirror, leaving the other materials unchanged. -/
def Material.deGlass : Material → Material
  | Material.Glass => Material.Mirror
  | m => m

/-- A sphere with its material de-glassed. -/
def Sphere.deGlass (s : Sphere) : Sphere :=
  ⟨s.radius, s.center, s.emission, s.color, s.material.deGlass⟩

/-- A scene with every Glass sphere turned into a Mirror sphere. -/
def Scene.deGlass (s : Scene) : Scene := ⟨s.spheres.map Sphere.deGlass, s.lights⟩

/-- De-glassing an intersection record. -/
def dgIt (it : Intersect) : Intersect := ⟨it.t, Sphere.deGlass it.sphere⟩

/-- `intersect` ignores the material: de-glassing the sphere de-glasses the
result. -/
theorem intersect_deGlass (sp : Sphere) (ray : Ray) :
    intersect (Sphere.deGlass sp) ray =
      Option.map dgIt (intersect sp ray) := by
  rw [intersect, intersect]
  simp only [Sphere.deGlass]
  split_ifs <;> rfl

/-- The nearest-hit fold commutes with de-glassing. -/
theorem foldl_intersect_deGlass (ray : Ray) :
    ∀ (l : List Sphere) (init : Option Intersect),
      (l.map Sphere.deGlass).foldl (stepIntersect ray) (Option.map dgIt init) =
        Option.map dgIt (l.foldl (stepIntersect ray) init) := by
  intro l
  induction l with
  | nil => intro init; rfl
  | cons sp l ihl =>
    intro init
    rw [List.map_cons, List.foldl_cons, List.foldl_cons]
    have hstep : stepIntersect ray (Option.map dgIt init) (Sphere.deGlass sp) =
        Option.map dgIt (stepIntersect ray init sp) := by
      rcases hs : intersect sp ray with _ | r1
      · have hs2 : intersect (Sphere.deGlass sp) ray = none := by
          rw [intersect_deGlass, hs]
          rfl
        rw [stepIntersect_none ray (Option.map dgIt init) (Sphere.deGlass sp) hs2,
          stepIntersect_none ray init sp hs]
      · have hs2 : intersect (Sphere.deGlass sp) ray = some (dgIt r1) := by
          rw [intersect_deGlass, hs]
          rfl
        rcases init with _ | r0
        · simp only [Option.map_none']
          rw [stepIntersect_some_none ray (Sphere.deGlass sp) (dgIt r1) hs2,
            stepIntersect_some_none ray sp r1 hs]
          rfl
        · simp only [Option.map_some']
          by_cases hlt : r1.t < r0.t
          · rw [stepIntersect_some_lt ray (Sphere.deGlass sp) (dgIt r0) (dgIt r1)
              hs2 hlt,
              stepIntersect_some_lt ray sp r0 r1 hs hlt]
            rfl
          · rw [stepIntersect_some_ge ray (Sphere.deGlass sp) (dgIt r0) (dgIt r1)
              hs2 hlt,
              stepIntersect_some_ge ray sp r0 r1 hs hlt]
            rfl
    rw [hstep, ihl]

/-- `intersect_scene` commutes with de-glassing the scene. -/
theorem intersect_scene_deGlass (scene : Scene) (ray : Ray) :
    intersect_scene (Scene.deGlass scene) ray =
      Option.map dgIt (intersect_scene scene ray) := by
  rw [intersect_scene, intersect_scene]
  exact foldl_intersect_deGlass ray scene.spheres none

/-- Occlusion ignores materials entirely. -/
theorem directOccluded_deGlass (scene : Scene) (light : Light) (p : Vec3) :
    directOccluded (Scene.deGlass scene) light p =
      directOccluded scene light p := by
  rw [directOccluded, directOccluded]
  rw [intersect_scene_deGlass]
  rcases intersect_scene scene
      ⟨p.add
          (((light.position.sub p).mulf
              (1 / ratSqrt (light.position.sub p).length2)).mulf (1 / 100)),
        (light.position.sub p).mulf
          (1 / ratSqrt (light.position.sub p).length2)⟩ with _ | it
  · rfl
  · rfl

/-- Direct lighting is unchanged by de-glassing (it reads only geometry,
color and occlusion). -/
theorem compute_direct_deGlass (scene : Scene) (sp : Sphere) (light : Light)
    (p : Vec3) :
    compute_direct_lighting (Scene.deGlass scene) (Sphere.deGlass sp) light p =
      compute_direct_lighting scene sp light p := by
  rw [compute_direct_lighting_eq, compute_direct_lighting_eq,
    directOccluded_deGlass]
  simp only [Sphere.deGlass]

/-- Fuel-level simulation: de-glassing the scene (and, for the indirect
estimator, the shaded sphere) never changes the computed radiance, at any
fuel. -/
theorem radianceF_deGlass :
    ∀ fuel : Nat,
      (∀ scene ray depth rands,
        radianceF fuel (Scene.deGlass scene) ray depth rands =
          radianceF fuel scene ray depth rands) ∧
      (∀ scene sp p depth rands,
        compute_indirect_lightingF fuel (Scene.deGlass scene)
            (Sphere.deGlass sp) p depth rands =
          compute_indirect_lightingF fuel scene sp p depth rands) := by
  intro fuel
  induction fuel with
  | zero => exact ⟨fun _ _ _ _ => rfl, fun _ _ _ _ _ => rfl⟩
  | succ fuel ih =>
    constructor
    · intro scene ray depth rands
      rw [radianceF, radianceF]
      by_cases hd : 3 < depth
      · simp only [dif_pos hd]
      · simp only [dif_neg hd]
        rw [intersect_scene_deGlass]
        cases hi : intersect_scene scene ray with
        | none => rfl
        | some it =>
          cases hM : it.sphere.material with
          | Diffuse =>
            simp only [Option.map_some', dgIt, Sphere.deGlass, Scene.deGlass,
              hM, Material.deGlass]
            cases hL : scene.lights with
            | nil => rfl
            | cons l ls =>
              have hind := ih.2 scene it.sphere (ray.get_p it.t) depth rands
              have hdir := compute_direct_deGlass scene it.sphere l (ray.get_p it.t)
              simp only [Sphere.deGlass, Scene.deGlass, hM, hL, Material.deGlass] at hind hdir
              simp only [hind, hdir]
          | Mirror =>
            simp only [Option.map_some', dgIt, Sphere.deGlass, Scene.deGlass,
              hM, Material.deGlass]
            have hr := ih.1 scene
            simp only [Scene.deGlass] at hr
            rw [hr]
          | Glass =>
            simp only [Option.map_some', dgIt, Sphere.deGlass, Scene.deGlass,
              hM, Material.deGlass]
            have hr := ih.1 scene
            simp only [Scene.deGlass] at hr
            rw [hr]
    · intro scene sp p depth rands
      rcases rands with _ | ⟨u, _ | ⟨v, _ | ⟨w, rest⟩⟩⟩
      · rfl
      · rfl
      · rfl
      · rw [compute_indirect_lightingF, compute_indirect_lightingF]
        simp only [Sphere.deGlass]
        by_cases hdot :
            0 < ((p.sub sp.center).normalize).dot
              ((((Vec3.new u v w).mulf 2).sub (Vec3.new 1 1 1)).normalize)
        · rw [if_pos hdot, if_pos hdot]
          have h2 := ih.2 scene sp p depth rest
          simp only [Sphere.deGlass, Scene.deGlass] at h2
          exact h2
        · rw [if_neg hdot, if_neg hdot, ih.1 scene]

/-- Claim C5: Glass is behaviorally identical to Mirror.  Turning every
Glass sphere of a scene into a Mirror sphere never changes `radiance`
(first conjunct), and at a hit within the depth cap both a Glass and a
Mirror sphere return the radiance of the reflected ray at `depth + 1`,
origin offset by `0.01`, with no color attenuation (second and third
conjuncts, whose right-hand sides are syntactically identical). -/
theorem claim5_glass_mirror :
    (∀ (scene : Scene) (ray : Ray) (depth : Nat) (rands : List ℚ),
      radiance (Scene.deGlass scene) ray depth rands =
        radiance scene ray depth rands) ∧
    (∀ (scene : Scene) (ray : Ray) (depth : Nat) (rands : List ℚ)
      (it : Intersect), ¬ 3 < depth → intersect_scene scene ray = some it →
      it.sphere.material = Material.Glass →
      radiance scene ray depth rands =
        radiance scene
          ⟨(ray.get_p it.t).add
              ((reflect ray.direction
                  (((ray.get_p it.t).sub it.sphere.center).normalize)).mulf
                (1 / 100)),
            reflect ray.direction
              (((ray.get_p it.t).sub it.sphere.center).normalize)⟩
          (depth + 1) rands) ∧
    (∀ (scene : Scene) (ray : Ray) (depth : Nat) (rands : List ℚ)
      (it : Intersect), ¬ 3 < depth → intersect_scene scene ray = some it →
      it.sphere.material = Material.Mirror →
      radiance scene ray depth rands =
        radiance scene
          ⟨(ray.get_p it.t).add
              ((reflect ray.direction
                  (((ray.get_p it.t).sub it.sphere.center).normalize)).mulf
                (1 / 100)),
            reflect ray.direction
              (((ray.get_p it.t).sub it.sphere.center).normalize)⟩
          (depth + 1) rands) := by
  refine ⟨?_, ?_, ?_⟩
  · intro scene ray depth rands
    rw [radiance, radiance]
    exact (radianceF_deGlass (radFuel depth rands)).1 scene ray depth rands
  · intro scene ray depth rands it h hit hmat
    exact radiance_hit_glass scene ray depth rands it h hit hmat
  · intro scene ray depth rands it h hit hmat
    exact radiance_hit_mirror scene ray depth rands it h hit hmat

/-- The C5 witness sphere: a Glass sphere at `(5,0,0)` of radius 1, hit by
the ray from the origin along `+x` at `t = 4`. -/
def c5sphere : Sphere :=
  ⟨1, Vec3.new 5 0 0, Vec3.new 0 0 0, Vec3.new 1 1 1, Material.Glass⟩

/-- The same sphere as a Mirror. -/
def c5mirror : Sphere :=
  ⟨1, Vec3.new 5 0 0, Vec3.new 0 0 0, Vec3.new 1 1 1, Material.Mirror⟩

/-- The Glass witness scene. -/
def c5scene : Scene := ⟨[c5sphere], []⟩

/-- The Mirror witness scene. -/
def c5sceneM : Scene := ⟨[c5mirror], []⟩

/-- Witness for C5: at the concrete Glass hit and at the concrete Mirror hit
the recursion steps of the second and third conjuncts apply, with all
hypotheses discharged by evaluation. -/
theorem claim5_glass_mirror_witness :
    radiance c5scene c3ray 0 [] =
      radiance c5scene
        ⟨(c3ray.get_p (Intersect.mk 4 c5sphere).t).add
            ((reflect c3ray.direction
                (((c3ray.get_p (Intersect.mk 4 c5sphere).t).sub
                    (Intersect.mk 4 c5sphere).sphere.center).normalize)).mulf
              (1 / 100)),
          reflect c3ray.direction
            (((c3ray.get_p (Intersect.mk 4 c5sphere).t).sub
                (Intersect.mk 4 c5sphere).sphere.center).normalize)⟩
        1 [] ∧
    radiance c5sceneM c3ray 0 [] =
      radiance c5sceneM
        ⟨(c3ray.get_p (Intersect.mk 4 c5mirror).t).add
            ((reflect c3ray.direction
                (((c3ray.get_p (Intersect.mk 4 c5mirror).t).sub
                    (Intersect.mk 4 c5mirror).sphere.center).normalize)).mulf
              (1 / 100)),
          reflect c3ray.direction
            (((c3ray.get_p (Intersect.mk 4 c5mirror).t).sub
                (Intersect.mk 4 c5mirror).sphere.center).normalize)⟩
        1 [] := by
  have h4 : ratSqrt 4 = 2 := ratSqrt_eval 4 2 (by norm_num) (by norm_num)
  constructor
  · refine claim5_glass_mirror.2.1 c5scene c3ray 0 [] (Intersect.mk 4 c5sphere)
      (by norm_num) ?_ rfl
    norm_num [intersect_scene, stepIntersect, intersect, List.foldl_cons,
      List.foldl_nil, Vec3.dot, Vec3.length2, Vec3.sub, Vec3.mul, Vec3.new,
      c5scene, c5sphere, c3ray, h4]
  · refine claim5_glass_mirror.2.2 c5sceneM c3ray 0 [] (Intersect.mk 4 c5mirror)
      (by norm_num) ?_ rfl
    norm_num [intersect_scene, stepIntersect, intersect, List.foldl_cons,
      List.foldl_nil, Vec3.dot, Vec3.length2, Vec3.sub, Vec3.mul, Vec3.new,
      c5sceneM, c5mirror, c3ray, h4]

/-- `intersect_scene` reads the scene only through its sphere list. -/
theorem intersect_scene_congr (s1 s2 : Scene) (h : s1.spheres = s2.spheres) :
    intersect_scene s1 = intersect_scene s2 := by
  funext ray
  rw [intersect_scene, intersect_scene, h]

/-- Occlusion reads the scene only through its sphere list. -/
theorem directOccluded_congr (s1 s2 : Scene) (h : s1.spheres = s2.spheres)
    (light : Light) (p : Vec3) :
    directOccluded s1 light p = directOccluded s2 light p := by
  rw [directOccluded, directOccluded, intersect_scene_congr s1 s2 h]

/-- Direct lighting reads the scene only through its sphere list. -/
theorem compute_direct_congr (s1 s2 : Scene) (h : s1.spheres = s2.spheres)
    (sp : Sphere) (light : Light) (p : Vec3) :
    compute_direct_lighting s1 sp light p =
      compute_direct_lighting s2 sp light p := by
  rw [compute_direct_lighting_eq, compute_direct_lighting_eq,
    directOccluded_congr s1 s2 h]

/-- An `Except.map` is never an error its argument is not. -/
theorem except_map_ne_error (f : Vec3 → Vec3) (x : Except RtErr Vec3)
    (e : RtErr) (hx : x ≠ Except.error e) : x.map f ≠ Except.error e := by
  cases x with
  | error e2 => simpa [Except.map] using hx
  | ok v => simp [Except.map]

/-- Fuel-level simulation for C10: two scenes with the same spheres and the
same first light (if any) make `radianceF` and
`compute_indirect_lightingF` agree at every fuel: the tail of the light
list is never read. -/
theorem radianceF_lights_head :
    ∀ (fuel : Nat) (s1 s2 : Scene), s1.spheres = s2.spheres →
      s1.lights.head? = s2.lights.head? →
      (∀ ray depth rands,
        radianceF fuel s1 ray depth rands = radianceF fuel s2 ray depth rands) ∧
      (∀ sp p depth rands,
        compute_indirect_lightingF fuel s1 sp p depth rands =
          compute_indirect_lightingF fuel s2 sp p depth rands) := by
  intro fuel
  induction fuel with
  | zero => exact fun s1 s2 _ _ => ⟨fun _ _ _ => rfl, fun _ _ _ _ => rfl⟩
  | succ fuel ih =>
    intro s1 s2 hsp hhead
    constructor
    · intro ray depth rands
      rw [radianceF, radianceF]
      by_cases hd : 3 < depth
      · simp only [dif_pos hd]
      · simp only [dif_neg hd]
        rw [intersect_scene_congr s1 s2 hsp]
        cases hi : intersect_scene s2 ray with
        | none => rfl
        | some it =>
          simp only []
          cases hM : it.sphere.material with
          | Diffuse =>
            simp only [hM]
            cases hL1 : s1.lights with
            | nil =>
              cases hL2 : s2.lights with
              | nil => rfl
              | cons l2 ls2 =>
                rw [hL1, hL2] at hhead
                simp at hhead
            | cons l ls =>
              cases hL2 : s2.lights with
              | nil =>
                rw [hL1, hL2] at hhead
                simp at hhead
              | cons l2 ls2 =>
                rw [hL1, hL2] at hhead
                simp only [List.head?_cons, Option.some.injEq] at hhead
                subst hhead
                simp only []
                rw [(ih s1 s2 hsp (by simp [hL1, hL2])).2 it.sphere
                  (ray.get_p it.t) depth rands,
                  compute_direct_congr s1 s2 hsp it.sphere l (ray.get_p it.t)]
          | Mirror =>
            simp only [hM]
            rw [(ih s1 s2 hsp (by rw [hhead])).1]
          | Glass =>
            simp only [hM]
            rw [(ih s1 s2 hsp (by rw [hhead])).1]
    · intro sp p depth rands
      rcases rands with _ | ⟨u, _ | ⟨v, _ | ⟨w, rest⟩⟩⟩
      · rfl
      · rfl
      · rfl
      · rw [compute_indirect_lightingF, compute_indirect_lightingF]
        simp only []
        by_cases hdot :
            0 < ((p.sub sp.center).normalize).dot
              ((((Vec3.new u v w).mulf 2).sub (Vec3.new 1 1 1)).normalize)
        · rw [if_pos hdot, if_pos hdot,
            (ih s1 s2 hsp hhead).2 sp p depth rest]
        · rw [if_neg hdot, if_neg hdot, (ih s1 s2 hsp hhead).1]

/-- Fuel-level absence of the index panic: with a non-empty light list,
neither `radianceF` nor `compute_indirect_lightingF` can return
`RtErr.indexOut` at any fuel. -/
theorem radianceF_no_indexOut :
    ∀ (fuel : Nat) (scene : Scene), scene.lights ≠ [] →
      (∀ ray depth rands,
        radianceF fuel scene ray depth rands ≠ Except.error RtErr.indexOut) ∧
      (∀ sp p depth rands,
        compute_indirect_lightingF fuel scene sp p depth rands ≠
          Except.error RtErr.indexOut) := by
  intro fuel
  induction fuel with
  | zero => exact fun scene _ => ⟨fun _ _ _ => by simp [radianceF],
      fun _ _ _ _ => by simp [compute_indirect_lightingF]⟩
  | succ fuel ih =>
    intro scene hl
    constructor
    · intro ray depth rands
      rw [radianceF]
      by_cases hd : 3 < depth
      · simp only [dif_pos hd]
        simp
      · simp only [dif_neg hd]
        cases hi : intersect_scene scene ray with
        | none => simp
        | some it =>
          simp only []
          cases hM : it.sphere.material with
          | Diffuse =>
            simp only [hM]
            cases hL : scene.lights with
            | nil => exact absurd hL hl
            | cons l ls =>
              exact except_map_ne_error _ _ _
                ((ih scene hl).2 it.sphere (ray.get_p it.t) depth rands)
          | Mirror =>
            simp only [hM]
            exact (ih scene hl).1 _ _ _
          | Glass =>
            simp only [hM]
            exact (ih scene hl).1 _ _ _
    · intro sp p depth rands
      rcases rands with _ | ⟨u, _ | ⟨v, _ | ⟨w, rest⟩⟩⟩
      · simp [compute_indirect_lightingF]
      · simp [compute_indirect_lightingF]
      · simp [compute_indirect_lightingF]
      · rw [compute_indirect_lightingF]
        simp only []
        by_cases hdot :
            0 < ((p.sub sp.center).normalize).dot
              ((((Vec3.new u v w).mulf 2).sub (Vec3.new 1 1 1)).normalize)
        · rw [if_pos hdot]
          exact (ih scene hl).2 sp p depth rest
        · rw [if_neg hdot]
          exact except_map_ne_error _ _ _ ((ih scene hl).1 _ _ _)

/-- Claim C10: a Diffuse hit reads exactly the first light.  First conjunct:
two scenes with the same spheres and the same first light (whatever the
tails) render identically, so no light beyond `lights[0]` is ever read.
Second conjunct: with a non-empty light list the out-of-bounds branch is
unreachable (`radiance` never returns the index panic).  Third conjunct:
with an empty light list a Diffuse hit within the depth cap makes `radiance`
fail with the index panic rather than return a value. -/
theorem claim10_first_light :
    (∀ (s1 s2 : Scene) (ray : Ray) (depth : Nat) (rands : List ℚ),
      s1.spheres = s2.spheres → s1.lights.head? = s2.lights.head? →
      radiance s1 ray depth rands = radiance s2 ray depth rands) ∧
    (∀ (scene : Scene) (ray : Ray) (depth : Nat) (rands : List ℚ),
      scene.lights ≠ [] →
      radiance scene ray depth rands ≠ Except.error RtErr.indexOut) ∧
    (∀ (scene : Scene) (ray : Ray) (depth : Nat) (rands : List ℚ)
      (it : Intersect), scene.lights = [] → ¬ 3 < depth →
      intersect_scene scene ray = some it →
      it.sphere.material = Material.Diffuse →
      radiance scene ray depth rands = Except.error RtErr.indexOut) := by
  refine ⟨?_, ?_, ?_⟩
  · intro s1 s2 ray depth rands hsp hhead
    rw [radiance, radiance]
    exact (radianceF_lights_head (radFuel depth rands) s1 s2 hsp hhead).1
      ray depth rands
  · intro scene ray depth rands hl
    rw [radiance]
    exact (radianceF_no_indexOut (radFuel depth rands) scene hl).1 ray depth rands
  · intro scene ray depth rands it hl hd hit hmat
    exact radiance_hit_diffuse_nolights scene ray depth rands it hd hit hmat hl

/-- Scene with the C6 geometry but a second light appended: only the first
light may matter. -/
def c10scene2 : Scene := ⟨[c6sphere], [c6light, c4light]⟩

/-- Scene with a Diffuse sphere and no light at all. -/
def c10sceneEmpty : Scene := ⟨[c3sA], []⟩

/-- Witness for C10: appending a second light changes nothing; a scene with
a light never panics; the empty-light scene with a Diffuse hit fails with
the index panic. -/
theorem claim10_first_light_witness :
    radiance c6scene c3ray 0 [] = radiance c10scene2 c3ray 0 [] ∧
    radiance c6scene c3ray 0 [] ≠ Except.error RtErr.indexOut ∧
    radiance c10sceneEmpty c3ray 0 [] = Except.error RtErr.indexOut := by
  have h4 : ratSqrt 4 = 2 := ratSqrt_eval 4 2 (by norm_num) (by norm_num)
  refine ⟨claim10_first_light.1 c6scene c10scene2 c3ray 0 [] rfl rfl,
    claim10_first_light.2.1 c6scene c3ray 0 [] (by simp [c6scene]),
    claim10_first_light.2.2 c10sceneEmpty c3ray 0 [] (Intersect.mk 4 c3sA)
      rfl (by norm_num) ?_ rfl⟩
  norm_num [intersect_scene, stepIntersect, intersect, List.foldl_cons,
    List.foldl_nil, Vec3.dot, Vec3.length2, Vec3.sub, Vec3.mul, Vec3.new,
    c10sceneEmpty, c3sA, c3ray, h4]

/-- The sphere struck by `intersect_scene` is a sphere of the scene. -/
theorem intersect_scene_sphere_mem (scene : Scene) (ray : Ray)
    (res : Intersect) (h : intersect_scene scene ray = some res) :
    res.sphere ∈ scene.spheres := by
  rw [intersect_scene] at h
  rcases foldl_intersect_some ray scene.spheres none res h with
    ⟨h1, _⟩ | ⟨l1, st, l2, hdec, hw, _, _, _⟩
  · cases h1
  · rw [intersect_sphere_eq st ray res hw, hdec]
    exact List.mem_append.mpr (Or.inr (List.mem_cons_self st l2))

/-- Claim C7: in a scene consisting solely of Mirror spheres, `radiance`
terminates with an actual (finite rational) value, never consults the random
stream, and the recursion is cut off by the depth cap. -/
theorem claim7_mirror_termination :
    ∀ scene : Scene, (∀ s ∈ scene.spheres, s.material = Material.Mirror) →
      ∀ (ray : Ray) (depth : Nat) (rands : List ℚ),
        (∃ v : Vec3, radiance scene ray depth rands = Except.ok v) ∧
        (∀ rands2 : List ℚ,
          radiance scene ray depth rands = radiance scene ray depth rands2) ∧
        (3 < depth →
          radiance scene ray depth rands = Except.ok (Vec3.new 0 0 0)) := by
  intro scene hmir
  suffices h : ∀ m : Nat, ∀ (ray : Ray) (depth : Nat) (rands : List ℚ),
      4 - depth ≤ m →
      (∃ v : Vec3, radiance scene ray depth rands = Except.ok v) ∧
      (∀ rands2 : List ℚ,
        radiance scene ray depth rands = radiance scene ray depth rands2) ∧
      (3 < depth →
        radiance scene ray depth rands = Except.ok (Vec3.new 0 0 0)) by
    intro ray depth rands
    exact h (4 - depth) ray depth rands le_rfl
  intro m
  induction m with
  | zero =>
    intro ray depth rands hm
    have hd : 3 < depth := by omega
    refine ⟨⟨Vec3.new 0 0 0, radiance_depth_exceeded scene ray depth rands hd⟩,
      ?_, fun _ => radiance_depth_exceeded scene ray depth rands hd⟩
    intro rands2
    rw [radiance_depth_exceeded scene ray depth rands hd,
      radiance_depth_exceeded scene ray depth rands2 hd]
  | succ m ihm =>
    intro ray depth rands hm
    by_cases hd : 3 < depth
    · refine ⟨⟨Vec3.new 0 0 0, radiance_depth_exceeded scene ray depth rands hd⟩,
        ?_, fun _ => radiance_depth_exceeded scene ray depth rands hd⟩
      intro rands2
      rw [radiance_depth_exceeded scene ray depth rands hd,
        radiance_depth_exceeded scene ray depth rands2 hd]
    · cases hi : intersect_scene scene ray with
      | none =>
        refine ⟨⟨Vec3.new 0 0 0, radiance_miss scene ray depth rands hd hi⟩,
          ?_, fun hc => absurd hc hd⟩
        intro rands2
        rw [radiance_miss scene ray depth rands hd hi,
          radiance_miss scene ray depth rands2 hd hi]
      | some it =>
        have hmat : it.sphere.material = Material.Mirror :=
          hmir it.sphere (intersect_scene_sphere_mem scene ray it hi)
        obtain ⟨⟨v, hv⟩, hindep, _⟩ := ihm
          ⟨(ray.get_p it.t).add
              ((reflect ray.direction
                  (((ray.get_p it.t).sub it.sphere.center).normalize)).mulf
                (1 / 100)),
            reflect ray.direction
              (((ray.get_p it.t).sub it.sphere.center).normalize)⟩
          (depth + 1) rands (by omega)
        refine ⟨⟨v, ?_⟩, ?_, fun hc => absurd hc hd⟩
        · rw [radiance_hit_mirror scene ray depth rands it hd hi hmat]
          exact hv
        · intro rands2
          rw [radiance_hit_mirror scene ray depth rands it hd hi hmat,
            radiance_hit_mirror scene ray depth rands2 it hd hi hmat]
          exact hindep rands2

/-- A Mirror sphere at `(5,0,0)` of radius 1 for the C7 witness. -/
def c7scene : Scene := ⟨[c5mirror], []⟩

/-- Witness for C7: on an all-Mirror scene (here bouncing the `+x` ray), the
radiance exists as an `ok` value, ignores the random stream, and the cap
clause holds vacuously at depth 0. -/
theorem claim7_mirror_termination_witness :
    (∃ v : Vec3, radiance c7scene c3ray 0 [] = Except.ok v) ∧
    (∀ rands2 : List ℚ,
      radiance c7scene c3ray 0 [] = radiance c7scene c3ray 0 rands2) ∧
    (3 < 0 → radiance c7scene c3ray 0 [] = Except.ok (Vec3.new 0 0 0)) :=
  claim7_mirror_termination c7scene
    (by intro s hs; simp [c7scene] at hs; rw [hs]; rfl) c3ray 0 []

/-- The C1 sphere: unit sphere at the origin, Diffuse, white. -/
def c1sphere : Sphere :=
  ⟨1, Vec3.new 0 0 0, Vec3.new 0 0 0, Vec3.new 1 1 1, Material.Diffuse⟩

/-- The C1 light: below the sphere at `(0,0,-5)`, with emission
`3.14159 * 16` per channel so that the unoccluded direct lighting at
`(0,0,-1)` is exactly `(1,1,1)`. -/
def c1light : Light :=
  ⟨Vec3.new 0 0 (-5), Vec3.new (314159 / 6250) (314159 / 6250) (314159 / 6250)⟩

/-- The C1 scene. -/
def c1scene : Scene := ⟨[c1sphere], [c1light]⟩

/-- The downward ray from `(0,0,0.99)`: spawned by the sampler at the
shaded point `(0,0,1)`, and again at depth 3. -/
def c1rayDown : Ray := ⟨Vec3.new 0 0 (99 / 100), Vec3.new 0 0 (-1)⟩

/-- The upward ray from `(0,0,-0.99)`: spawned by the sampler at
`(0,0,-1)`. -/
def c1rayUp : Ray := ⟨Vec3.new 0 0 (-(99 / 100)), Vec3.new 0 0 1⟩

/-- The downward ray exits the sphere at `t = 1.99`. -/
theorem c1hitDown : intersect_scene c1scene c1rayDown =
    some ⟨199 / 100, c1sphere⟩ := by
  have h4 : ratSqrt 4 = 2 := ratSqrt_eval 4 2 (by norm_num) (by norm_num)
  norm_num [intersect_scene, stepIntersect, intersect, List.foldl_cons,
    List.foldl_nil, Vec3.dot, Vec3.length2, Vec3.sub, Vec3.mul, Vec3.new,
    c1scene, c1sphere, c1rayDown, h4]

/-- The upward ray exits the sphere at `t = 1.99`. -/
theorem c1hitUp : intersect_scene c1scene c1rayUp =
    some ⟨199 / 100, c1sphere⟩ := by
  have h4 : ratSqrt 4 = 2 := ratSqrt_eval 4 2 (by norm_num) (by norm_num)
  norm_num [intersect_scene, stepIntersect, intersect, List.foldl_cons,
    List.foldl_nil, Vec3.dot, Vec3.length2, Vec3.sub, Vec3.mul, Vec3.new,
    c1scene, c1sphere, c1rayUp, h4]

/-- The downward hit point is the south pole `(0,0,-1)`. -/
theorem c1pDown : c1rayDown.get_p (199 / 100) = Vec3.new 0 0 (-1) := by
  norm_num [Ray.get_p, Vec3.add, Vec3.mulf, Vec3.new, c1rayDown]

/-- The upward hit point is the north pole `(0,0,1)`. -/
theorem c1pUp : c1rayUp.get_p (199 / 100) = Vec3.new 0 0 1 := by
  norm_num [Ray.get_p, Vec3.add, Vec3.mulf, Vec3.new, c1rayUp]

/-- The cube sample `(1/2, 1/2, 0)` normalizes to straight down. -/
theorem c1dirDown : cubeDir (1 / 2) (1 / 2) 0 = Vec3.new 0 0 (-1) := by
  have h1 : ratSqrt 1 = 1 := ratSqrt_eval 1 1 (by norm_num) (by norm_num)
  norm_num [cubeDir, Vec3.normalize, Vec3.length2, Vec3.sub, Vec3.mulf,
    Vec3.new, h1]

/-- The cube sample `(1/2, 1/2, 1)` normalizes to straight up. -/
theorem c1dirUp : cubeDir (1 / 2) (1 / 2) 1 = Vec3.new 0 0 1 := by
  have h1 : ratSqrt 1 = 1 := ratSqrt_eval 1 1 (by norm_num) (by norm_num)
  norm_num [cubeDir, Vec3.normalize, Vec3.length2, Vec3.sub, Vec3.mulf,
    Vec3.new, h1]

/-- Direct lighting at the south pole: unoccluded, exactly `(1,1,1)` by
choice of the emission. -/
theorem c1directDown :
    compute_direct_lighting c1scene c1sphere c1light (Vec3.new 0 0 (-1)) =
      Vec3.new 1 1 1 := by
  have h1 : ratSqrt 1 = 1 := ratSqrt_eval 1 1 (by norm_num) (by norm_num)
  have h4 : ratSqrt 4 = 2 := ratSqrt_eval 4 2 (by norm_num) (by norm_num)
  have h16 : ratSqrt 16 = 4 := ratSqrt_eval 16 4 (by norm_num) (by norm_num)
  norm_num [compute_direct_lighting, intersect_scene, stepIntersect,
    intersect, List.foldl_cons, List.foldl_nil, Vec3.dot, Vec3.length2,
    Vec3.sub, Vec3.mul, Vec3.mulf, Vec3.add, Vec3.new, Vec3.normalize,
    c1scene, c1sphere, c1light, h1, h4, h16]

/-- Direct lighting at the north pole: the shadow ray toward the light
below re-enters the sphere (`t = 1.99 < 6`), so the contribution is zero. -/
theorem c1directUp :
    compute_direct_lighting c1scene c1sphere c1light (Vec3.new 0 0 1) =
      Vec3.new 0 0 0 := by
  have h1 : ratSqrt 1 = 1 := ratSqrt_eval 1 1 (by norm_num) (by norm_num)
  have h4 : ratSqrt 4 = 2 := ratSqrt_eval 4 2 (by norm_num) (by norm_num)
  have h36 : ratSqrt 36 = 6 := ratSqrt_eval 36 6 (by norm_num) (by norm_num)
  norm_num [compute_direct_lighting, intersect_scene, stepIntersect,
    intersect, List.foldl_cons, List.foldl_nil, Vec3.dot, Vec3.length2,
    Vec3.sub, Vec3.mul, Vec3.mulf, Vec3.add, Vec3.new, Vec3.normalize,
    c1scene, c1sphere, c1light, h1, h4, h36]

/-- Depth-3 radiance along the downward ray: direct `(1,1,1)` plus an
indirect bounce that is cut off by the depth cap. -/
theorem c1rad3 : radiance c1scene c1rayDown 3 [1 / 2, 1 / 2, 1] =
    Except.ok (Vec3.new 1 1 1) := by
  have h1 : ratSqrt 1 = 1 := ratSqrt_eval 1 1 (by norm_num) (by norm_num)
  rw [radiance_hit_diffuse c1scene c1rayDown 3 [1 / 2, 1 / 2, 1]
    ⟨199 / 100, c1sphere⟩ c1light [] (by norm_num) c1hitDown rfl rfl]
  simp only []
  rw [c1pDown]
  rw [compute_indirect_accept c1scene c1sphere (Vec3.new 0 0 (-1)) 3
    (1 / 2) (1 / 2) 1 []
    (by rw [c1dirUp]
        norm_num [c1sphere, Vec3.sub, Vec3.new, Vec3.normalize, Vec3.mulf,
          Vec3.length2, Vec3.dot, Vec3.mul, h1])]
  rw [c1dirUp]
  rw [radiance_depth_exceeded c1scene _ 4 [] (by norm_num)]
  rw [c1directDown]
  norm_num [Except.map, Vec3.add, Vec3.mul, Vec3.mulf, Vec3.new, Vec3.sub,
    Vec3.normalize, Vec3.length2, Vec3.dot, c1sphere, h1]

/-- Depth-2 radiance along the upward ray: direct lighting at the north
pole is occluded, and the indirect bounce returns the scaled depth-3 value
`2 * (1,1,1)`. -/
theorem c1rad2 : radiance c1scene c1rayUp 2
    [1 / 2, 1 / 2, 0, 1 / 2, 1 / 2, 1] = Except.ok (Vec3.new 2 2 2) := by
  have h1 : ratSqrt 1 = 1 := ratSqrt_eval 1 1 (by norm_num) (by norm_num)
  rw [radiance_hit_diffuse c1scene c1rayUp 2 [1 / 2, 1 / 2, 0, 1 / 2, 1 / 2, 1]
    ⟨199 / 100, c1sphere⟩ c1light [] (by norm_num) c1hitUp rfl rfl]
  simp only []
  rw [c1pUp]
  rw [compute_indirect_accept c1scene c1sphere (Vec3.new 0 0 1) 2
    (1 / 2) (1 / 2) 0 [1 / 2, 1 / 2, 1]
    (by rw [c1dirDown]
        norm_num [c1sphere, Vec3.sub, Vec3.new, Vec3.normalize, Vec3.mulf,
          Vec3.length2, Vec3.dot, Vec3.mul, h1])]
  rw [c1dirDown]
  rw [show (Vec3.new 0 0 1).add ((Vec3.new 0 0 (-1)).mulf (1 / 100)) =
      Vec3.new 0 0 (99 / 100) by
    norm_num [Vec3.add, Vec3.mulf, Vec3.new]]
  rw [show (⟨Vec3.new 0 0 (99 / 100), Vec3.new 0 0 (-1)⟩ : Ray) = c1rayDown
    from rfl]
  rw [c1rad3]
  rw [c1directUp]
  norm_num [Except.map, Vec3.add, Vec3.mul, Vec3.mulf, Vec3.new, Vec3.sub,
    Vec3.normalize, Vec3.length2, Vec3.dot, c1sphere, h1]

/-- Depth-1 radiance along the downward ray: direct `(1,1,1)` plus the
scaled depth-2 value `2 * (2,2,2)`, i.e. `(5,5,5)`. -/
theorem c1rad1 : radiance c1scene c1rayDown 1
    [1 / 2, 1 / 2, 1, 1 / 2, 1 / 2, 0, 1 / 2, 1 / 2, 1] =
      Except.ok (Vec3.new 5 5 5) := by
  have h1 : ratSqrt 1 = 1 := ratSqrt_eval 1 1 (by norm_num) (by norm_num)
  rw [radiance_hit_diffuse c1scene c1rayDown 1
    [1 / 2, 1 / 2, 1, 1 / 2, 1 / 2, 0, 1 / 2, 1 / 2, 1]
    ⟨199 / 100, c1sphere⟩ c1light [] (by norm_num) c1hitDown rfl rfl]
  simp only []
  rw [c1pDown]
  rw [compute_indirect_accept c1scene c1sphere (Vec3.new 0 0 (-1)) 1
    (1 / 2) (1 / 2) 1 [1 / 2, 1 / 2, 0, 1 / 2, 1 / 2, 1]
    (by rw [c1dirUp]
        norm_num [c1sphere, Vec3.sub, Vec3.new, Vec3.normalize, Vec3.mulf,
          Vec3.length2, Vec3.dot, Vec3.mul, h1])]
  rw [c1dirUp]
  rw [show (Vec3.new 0 0 (-1)).add ((Vec3.new 0 0 1).mulf (1 / 100)) =
      Vec3.new 0 0 (-(99 / 100)) by
    norm_num [Vec3.add, Vec3.mulf, Vec3.new]]
  rw [show (⟨Vec3.new 0 0 (-(99 / 100)), Vec3.new 0 0 1⟩ : Ray) = c1rayUp
    from rfl]
  rw [c1rad2]
  rw [c1directDown]
  norm_num [Except.map, Vec3.add, Vec3.mul, Vec3.mulf, Vec3.new, Vec3.sub,
    Vec3.normalize, Vec3.length2, Vec3.dot, c1sphere, h1]

/-- Claim C1, evaluated at the failing input (code_bug).  At the Diffuse hit
point `(0,0,1)` of the unit sphere, depth 0, with the random stream driving
the sampler to accept `(0,0,-1)`, the source computes
`color * (|n . d| * 2) * radiance(bounce ray, depth 1)`: the result
`(10,10,10)` is twice `color * radiance = (5,5,5)` along the very direction
the code itself sampled, exhibiting the extra `2|n . d|` weighting factor.
The claim (and the spec) instead prescribe flipping the normal toward the
incoming ray, an orthonormal basis and a cosine-weighted sample with no
factor beyond the color multiply; the code draws its direction by rejection
sampling from the cube `[-1,1]^3`, never reads the incoming ray, and keeps
only directions pointing against the outward normal. -/
theorem claim1_indirect_code_divergence :
    compute_indirect_lighting c1scene c1sphere (Vec3.new 0 0 1) 0
        [1 / 2, 1 / 2, 0, 1 / 2, 1 / 2, 1, 1 / 2, 1 / 2, 0, 1 / 2, 1 / 2, 1] =
      Except.ok (Vec3.new 10 10 10) ∧
    radiance c1scene c1rayDown 1
        [1 / 2, 1 / 2, 1, 1 / 2, 1 / 2, 0, 1 / 2, 1 / 2, 1] =
      Except.ok (Vec3.new 5 5 5) ∧
    (c1sphere.color).mul (Vec3.new 5 5 5) ≠ Vec3.new 10 10 10 := by
  have h1 : ratSqrt 1 = 1 := ratSqrt_eval 1 1 (by norm_num) (by norm_num)
  refine ⟨?_, c1rad1, by norm_num [c1sphere, Vec3.mul, Vec3.new]⟩
  rw [compute_indirect_accept c1scene c1sphere (Vec3.new 0 0 1) 0
    (1 / 2) (1 / 2) 0 [1 / 2, 1 / 2, 1, 1 / 2, 1 / 2, 0, 1 / 2, 1 / 2, 1]
    (by rw [c1dirDown]
        norm_num [c1sphere, Vec3.sub, Vec3.new, Vec3.normalize, Vec3.mulf,
          Vec3.length2, Vec3.dot, Vec3.mul, h1])]
  rw [c1dirDown]
  rw [show (Vec3.new 0 0 1).add ((Vec3.new 0 0 (-1)).mulf (1 / 100)) =
      Vec3.new 0 0 (99 / 100) by
    norm_num [Vec3.add, Vec3.mulf, Vec3.new]]
  rw [show (⟨Vec3.new 0 0 (99 / 100), Vec3.new 0 0 (-1)⟩ : Ray) = c1rayDown
    from rfl]
  rw [c1rad1]
  norm_num [Except.map, Vec3.mul, Vec3.mulf, Vec3.new, Vec3.sub,
    Vec3.normalize, Vec3.length2, Vec3.dot, c1sphere, h1]

end RustRt
